import Mathlib

/-!
# BulkMessageSender

A shallow embedding of the two source files of the repository:

* `public/script.js`: the browser-side input collector (tracked list `numbers`,
  the `input` and `paste` listeners, `addNumberTag`, `removeNumber`,
  `deleteAllNumbers`, the import of numbers returned by `/upload-excel`);
* `server.js`: the three request handlers `/send-media`, `/get-groups` and
  `/send-group-message`, written as pure functions that return the HTTP response
  (for `/send-media` possibly none, when an exception leaves the handler) together
  with the ordered trace of file-system and client effects.

Strings are Lean strings; the string operations the code uses are defined on the
list of characters so that every definition evaluates inside the kernel.
-/

namespace BulkMessageSender

/-! ## `public/script.js`: the input collector -/

/-- The class `\d` of a JavaScript regular expression: the ten ASCII digits. -/
def isDigit (c : Char) : Bool := c.isDigit

/-- White space as removed by `String.prototype.trim`: the ECMAScript `WhiteSpace` and
`LineTerminator` code points. -/
def isJsWhitespace (c : Char) : Bool :=
  let n := c.toNat
  n = 9 || n = 10 || n = 11 || n = 12 || n = 13 || n = 32 || n = 160 || n = 5760 ||
  (8192 ≤ n && n ≤ 8202) || n = 8232 || n = 8233 || n = 8239 || n = 8287 || n = 12288 ||
  n = 65279

/-- `String.prototype.trim`. -/
def trim (s : String) : String :=
  String.mk ((s.toList.dropWhile isJsWhitespace).reverse.dropWhile isJsWhitespace).reverse

/-- `/^\d{10}$/.test(s)`: the whole string is ten digits. -/
def isTenDigits (s : String) : Bool :=
  s.toList.length = 10 && s.toList.all isDigit

/-- The pattern `\d{10}` tried at the head of `cs`: the ten characters it matches there. -/
def matchTenAt (cs : List Char) : Option (List Char) :=
  if (cs.take 10).length = 10 ∧ (cs.take 10).all isDigit = true then some (cs.take 10) else none

/-- The global scan of `/\d{10}/g`: at each position try the pattern; after a match
resume right behind it, otherwise move one character on. The first argument bounds the
number of positions tried. -/
def matchAllAux : Nat → List Char → List (List Char)
  | 0, _ => []
  | _ + 1, [] => []
  | fuel + 1, c :: cs =>
    match matchTenAt (c :: cs) with
    | some m => m :: matchAllAux fuel ((c :: cs).drop 10)
    | none => matchAllAux fuel cs

/-- All matches of `/\d{10}/g` in a text, left to right. -/
def matchAll (text : String) : List String :=
  (matchAllAux text.toList.length text.toList).map String.mk

/-- The value of `pastedData.match(/\d{10}/g)`: `null` when nothing matches, otherwise the
array of matches. -/
def jsMatch (text : String) : Option (List String) :=
  match matchAll text with
  | [] => none
  | ms => some ms

/-- The state of the page that the collector reads and writes: the script variable
`numbers`, the tags inside `numberBox` (each shown by the number it carries), the text of
`numberCounter` and the content of the input field. -/
structure Collector where
  numbers : List String
  tags : List String
  counter : String
  inputValue : String
  deriving DecidableEq, Repr

/-- The page right after the script has loaded: `let numbers = []`. -/
def Collector.init : Collector :=
  { numbers := [], tags := [], counter := "", inputValue := "" }

/-- The function `updateCounter`. -/
def updateCounter (s : Collector) : Collector :=
  { s with counter := "You have added " ++ toString s.numbers.length ++ " number" ++
      (if s.numbers.length ≠ 1 then "s" else "") }

/-- The function `addNumberTag`. -/
def addNumberTag (s : Collector) (number : String) : Collector :=
  if ¬ number ∈ s.numbers then
    updateCounter { s with numbers := s.numbers ++ [number], tags := s.tags ++ [number] }
  else s

/-- The function `removeNumber(number, element)`; `tag` is the position in `numberBox` of the
tag that `element` belongs to. -/
def removeNumber (s : Collector) (number : String) (tag : Nat) : Collector :=
  updateCounter { s with numbers := s.numbers.filter (fun num => num ≠ number),
                         tags := s.tags.eraseIdx tag }

/-- The function `deleteAllNumbers`. -/
def deleteAllNumbers (s : Collector) : Collector :=
  updateCounter { s with numbers := [], tags := [] }

/-- The `input` listener, run with the content of the field after the edit. -/
def onInput (s : Collector) (value : String) : Collector :=
  let s1 := { s with inputValue := value }
  let enteredNumber := trim value
  if isTenDigits enteredNumber then
    { addNumberTag s1 enteredNumber with inputValue := "" }
  else s1

/-- The `paste` listener, run with the text of the clipboard. -/
def onPaste (s : Collector) (pastedData : String) : Collector :=
  let s1 :=
    match jsMatch pastedData with
    | some extractedNumbers => extractedNumbers.foldl addNumberTag s
    | none => s
  { s1 with inputValue := "" }

/-- The part of `uploadExcel` that runs once `/upload-excel` has answered with `data.numbers`. -/
def importNumbers (s : Collector) (dataNumbers : List String) : Collector :=
  if dataNumbers.length > 0 then dataNumbers.foldl addNumberTag s else s

/-- What can happen to the collector. -/
inductive Action where
  | input (value : String)
  | paste (pastedData : String)
  | importNumbers (dataNumbers : List String)
  | addNumberTag (number : String)
  | removeNumber (number : String) (tag : Nat)
  | deleteAllNumbers
  deriving DecidableEq, Repr

/-- One action applied to the collector. -/
def Collector.step (s : Collector) : Action → Collector
  | .input value => onInput s value
  | .paste pastedData => onPaste s pastedData
  | .importNumbers dataNumbers => importNumbers s dataNumbers
  | .addNumberTag number => addNumberTag s number
  | .removeNumber number tag => removeNumber s number tag
  | .deleteAllNumbers => deleteAllNumbers s

/-- A sequence of actions applied to the freshly loaded page. -/
def Collector.run (actions : List Action) : Collector :=
  actions.foldl Collector.step Collector.init

/-! ### Reading of "embedded 10-digit substrings" -/

/-- A block of exactly ten digits. -/
def TenDigits (m : List Char) : Prop := m.length = 10 ∧ ∀ c ∈ m, isDigit c = true

/-- Some ten consecutive characters of `s` are all digits. -/
def HasTenDigits (s : List Char) : Prop := ∃ m, TenDigits m ∧ m <:+: s

/-- The ten-digit substrings embedded in a text, in the order they are found reading left
to right: `EmbeddedTens text ms` splits the text as `g₀ m₁ g₁ m₂ … m_N g_N` where every
`mᵢ` is a block of ten digits and no ten consecutive digits begin inside a gap `gᵢ`. -/
inductive EmbeddedTens : List Char → List (List Char) → Prop
  | done {g : List Char} : ¬ HasTenDigits g → EmbeddedTens g []
  | next {g m rest : List Char} {ms : List (List Char)} :
      TenDigits m → ¬ HasTenDigits (g ++ m.take 9) → EmbeddedTens rest ms →
      EmbeddedTens (g ++ m ++ rest) (m :: ms)

/-- A list with every repetition of an earlier element dropped. -/
def firstOccurrences (xs : List String) : List String := (xs.reverse.dedup).reverse

/-! ## `server.js`: data -/

/-- A thrown value, or the reason of a rejected promise, as far as the handlers look at it:
either `undefined` or `null`, on which reading `.message` throws a `TypeError`, or any other
value with its property `message`, which is absent on values that are not `Error` objects. -/
inductive Thrown where
  | nullish
  | value (message : Option String)
  deriving DecidableEq, Repr

/-- The `TypeError` raised by `client.isConnected()` while `client` is still `undefined`. -/
def undefinedClientError : Thrown :=
  .value (some "Cannot read properties of undefined (reading 'isConnected')")

/-- The object `req.file` that multer stores for an uploaded file, with the size in bytes
that `fs.statSync` reports for it. -/
structure UploadedFile where
  path : String
  mimetype : String
  size : Nat
  deriving DecidableEq, Repr

/-- The identifier of a chat. -/
structure ChatId where
  server : String
  serialized : String
  deriving DecidableEq, Repr

/-- A chat as returned by `getAllChats`: the truthiness of `isGroup`, the identifier and the
name, either of which may be missing. -/
structure Chat where
  isGroup : Bool
  id : Option ChatId
  name : Option String
  deriving DecidableEq, Repr

/-- The automation client, an external collaborator. Each method tells whether the call
resolves (`none`) or rejects (`some e`); the first argument is the position of the call inside
the request, that is the index of the recipient being served (`0` for a group message). -/
structure Client where
  isConnected : Nat → Option Thrown
  sendText : Nat → String → Option String → Option Thrown
  sendFile : Nat → String → String → String → Option String → Option Thrown
  sendImageFromBase64 : Nat → String → String → String → Option String → Option Thrown
  getAllChats : Except Thrown (Option (List Chat))

/-- The value of `req.body.numbers` once it is not a string. -/
inductive NumbersValue where
  | array (items : List String)
  | other
  deriving DecidableEq, Repr

/-- The field `req.body.numbers`: a string still to be parsed, or any other value. -/
inductive NumbersField where
  | text (s : String)
  | value (v : NumbersValue)
  deriving DecidableEq, Repr

/-- The library functions the handlers call: `JSON.parse` (`none` when it throws),
`mime.extension` (`none` for `false`), `path.extname`, `path.basename`, the base64 content
read by `fs.readFileSync` (`none` when it throws) and the formatted time of `moment()`. -/
structure Env where
  jsonParse : String → Option NumbersValue
  mimeExtension : String → Option String
  extname : String → String
  basename : String → String
  readFileBase64 : String → Option String
  now : String

/-- The effects of a handler on the file system and on the client, in the order they occur. -/
inductive Effect where
  | renameSync (oldPath newPath : String)
  | statSync (path : String)
  | readFileSync (path : String)
  | unlinkSync (path : String)
  | wait (ms : Nat)
  | isConnected
  | sendText (dest : String) (text : Option String)
  | sendFile (dest path filename : String) (caption : Option String)
  | sendImageFromBase64 (dest base64 filename : String) (caption : Option String)
  | getAllChats
  deriving DecidableEq, Repr

/-- One entry of `results`. -/
structure SendResult where
  number : String
  status : String
  error : Option String
  deriving DecidableEq, Repr

/-- One entry of the answer of `/get-groups`. -/
structure Group where
  name : String
  id : String
  deriving DecidableEq, Repr

/-- The JSON body of a response. -/
inductive Body where
  | error (msg : String)
  | results (rs : List SendResult)
  | groups (gs : List Group)
  | sent (status group time : String)
  deriving DecidableEq, Repr

/-- An HTTP response: status code and body. -/
structure Response where
  status : Nat
  body : Body
  deriving DecidableEq, Repr

/-- The body of a `/send-media` request. -/
structure SendMediaRequest where
  numbers : NumbersField
  message : Option String
  file : Option UploadedFile

/-- The body of a `/send-group-message` request. -/
structure GroupMessageRequest where
  groupId : Option String
  message : Option String
  file : Option UploadedFile

/-! ## `server.js`: string helpers -/

/-- `String.prototype.startsWith`. -/
def startsWith (s pre : String) : Bool := pre.toList.isPrefixOf s.toList

/-- `String.prototype.toLowerCase` on the ASCII letters. The handlers compare the result
only with `".mp4"` and the five image formats, which no other character lowers into. -/
def toLowerCase (s : String) : String := String.mk (s.toList.map Char.toLower)

/-- `s.replace(".", "")`: the first dot removed. -/
def removeFirstDot (s : String) : String := String.mk (s.toList.erase '.')

/-- Truthiness of an optional string: present and not empty. -/
def truthy : Option String → Bool
  | some s => s ≠ ""
  | none => false

/-- Is a client effect a send to a destination. -/
def Effect.isSend : Effect → Bool
  | .sendText _ _ => true
  | .sendFile _ _ _ _ => true
  | .sendImageFromBase64 _ _ _ _ => true
  | _ => false

/-- Is an effect a call of a method of the client. -/
def Effect.isClientCall : Effect → Bool
  | .isConnected => true
  | .getAllChats => true
  | e => e.isSend

/-- Is an effect a deletion of a file. -/
def Effect.isUnlink : Effect → Bool
  | .unlinkSync _ => true
  | _ => false

/-! ## `server.js`: `POST /send-media` -/

/-- The country-code step at the head of the loop body. -/
def withCountryCode (number : String) : String :=
  if ¬ startsWith number "91" then "91" ++ number else number

/-- The video size check: `fileExt === ".mp4" && fileSize > 64` with
`fileSize = size / (1024 * 1024)`. -/
def videoTooLarge (env : Env) (filePath : String) (size : Nat) : Bool :=
  let fileSize : ℚ := (size : ℚ) / (1024 * 1024)
  let fileExt := toLowerCase (env.extname filePath)
  decide (fileExt = ".mp4") && decide (fileSize > 64)

/-- The entry pushed on success. -/
def sentEntry (number : String) : SendResult :=
  { number := number, status := "Sent ✅", error := none }

/-- The entry pushed by the `catch` block for an error whose property `message` was read. -/
def failedEntry (number : String) (message : Option String) : SendResult :=
  { number := number, status := "Failed ❌", error := message }

/-- The `catch` block of the loop body. It reads `error.message` twice, for the log and for
the entry; on `undefined` or `null` that read throws, nothing is pushed and the exception
leaves the handler (`none`). Otherwise the entry is pushed. -/
def catchBlock (number : String) : Thrown → Option SendResult
  | .nullish => none
  | .value message => some (failedEntry number message)

/-- The entry pushed by the size check. -/
def tooLargeEntry (number : String) : SendResult :=
  { number := number, status := "Failed ❌", error := some "Video file too large. Max: 64MB." }

/-- The sends of the loop body, from `await client.isConnected()` on, for the recipient at
index `i`: the entry pushed, or `none` when the `catch` block itself throws, and the effects.
`filePath` is the renamed path when a file was uploaded. -/
def attemptSend (env : Env) (client : Option Client) (message : Option String)
    (filePath : Option String) (i : Nat) (number : String) :
    Option SendResult × List Effect :=
  match client with
  | none => (catchBlock number undefinedClientError, [])
  | some c =>
    match c.isConnected i with
    | some e => (catchBlock number e, [.isConnected])
    | none =>
      match filePath with
      | some fp =>
        let call := Effect.sendFile (number ++ "@c.us") fp (env.basename fp) message
        match c.sendFile i (number ++ "@c.us") fp (env.basename fp) message with
        | some e => (catchBlock number e, [.isConnected, .wait 10000, call])
        | none => (some (sentEntry number), [.isConnected, .wait 10000, call])
      | none =>
        let call := Effect.sendText (number ++ "@c.us") message
        match c.sendText i (number ++ "@c.us") message with
        | some e => (catchBlock number e, [.isConnected, call])
        | none => (some (sentEntry number), [.isConnected, call])

/-- The body of the loop for the recipient at index `i`: the entry pushed, or `none` when an
exception leaves the body, and the effects. `file` is the renamed path and the size of the
uploaded file, when there is one. -/
def sendOne (env : Env) (client : Option Client) (message : Option String)
    (file : Option (String × Nat)) (i : Nat) (number : String) :
    Option SendResult × List Effect :=
  let number := withCountryCode number
  match file with
  | some (filePath, size) =>
    if videoTooLarge env filePath size then
      (some (tooLargeEntry number), [.statSync filePath])
    else
      let (r, es) := attemptSend env client message (some filePath) i number
      (r, Effect.statSync filePath :: es)
  | none => attemptSend env client message none i number

/-- The loop `for (let number of numbers)`, from index `i` on: the entries pushed to
`results`, in order, or `none` when an exception leaves the loop, and the effects up to the
end of the loop or up to the exception. -/
def sendLoop (env : Env) (client : Option Client) (message : Option String)
    (file : Option (String × Nat)) :
    Nat → List String → Option (List SendResult) × List Effect
  | _, [] => (some [], [])
  | i, number :: rest =>
    match sendOne env client message file i number with
    | (none, es) => (none, es)
    | (some r, es) =>
      match sendLoop env client message file (i + 1) rest with
      | (none, es') => (none, es ++ es')
      | (some rs, es') => (some (r :: rs), es ++ es')

/-- The array the handler works on after the two checks on `numbers`, or the 400 response. -/
def parseNumbers (env : Env) (numbers : NumbersField) : Except Response (List String) :=
  let parsed : Except Response NumbersValue :=
    match numbers with
    | .text s =>
      match env.jsonParse s with
      | some v => .ok v
      | none => .error { status := 400, body := .error "Invalid numbers format" }
    | .value v => .ok v
  match parsed with
  | .error r => .error r
  | .ok (.array (n :: ns)) => .ok (n :: ns)
  | .ok _ => .error { status := 400, body := .error "Numbers must be a valid array." }

/-- The handler of `POST /send-media`: the response, or `none` when an exception leaves the
handler and no response is sent, and the effects. -/
def sendMedia (env : Env) (client : Option Client) (req : SendMediaRequest) :
    Option Response × List Effect :=
  match parseNumbers env req.numbers with
  | .error r => (some r, [])
  | .ok numbers =>
    match req.file with
    | some f =>
      match env.mimeExtension f.mimetype with
      | some extension =>
        let newFilePath := f.path ++ "." ++ extension
        match sendLoop env client req.message (some (newFilePath, f.size)) 0 numbers with
        | (some results, es) =>
          (some { status := 200, body := .results results },
            [Effect.renameSync f.path newFilePath] ++ es ++ [Effect.unlinkSync newFilePath])
        | (none, es) => (none, [Effect.renameSync f.path newFilePath] ++ es)
      | none => (some { status := 400, body := .error "Unsupported file type" }, [])
    | none =>
      match sendLoop env client req.message none 0 numbers with
      | (some results, es) => (some { status := 200, body := .results results }, es)
      | (none, es) => (none, es)

/-! ## `server.js`: `GET /get-groups` -/

/-- The filter callback `chat.isGroup || chat.id.server === "g.us"`; `none` when reading
`chat.id.server` throws because the chat has no `id`. -/
def isGroupChat (chat : Chat) : Option Bool :=
  if chat.isGroup then some true
  else
    match chat.id with
    | some id => some (id.server = "g.us")
    | none => none

/-- `chats.filter(...)`; `none` when the callback throws. -/
def filterGroups : List Chat → Option (List Chat)
  | [] => some []
  | chat :: rest =>
    match isGroupChat chat with
    | none => none
    | some keep =>
      match filterGroups rest with
      | none => none
      | some kept => some (if keep then chat :: kept else kept)

/-- The map callback `({ name: group.name || "Unnamed Group", id: group.id._serialized })`;
`none` when the group has no `id`. -/
def toGroup (group : Chat) : Option Group :=
  match group.id with
  | some id =>
    some { name := if truthy group.name then group.name.getD "" else "Unnamed Group",
           id := id.serialized }
  | none => none

/-- `.map(...)`; `none` when the callback throws. -/
def mapGroups : List Chat → Option (List Group)
  | [] => some []
  | group :: rest =>
    match toGroup group with
    | none => none
    | some g =>
      match mapGroups rest with
      | none => none
      | some gs => some (g :: gs)

/-- The handler of `GET /get-groups`: the response and the effects. -/
def getGroups (client : Option Client) : Response × List Effect :=
  match client with
  | none => ({ status := 500, body := .error "WhatsApp client is not initialized yet." }, [])
  | some c =>
    match c.getAllChats with
    | .error _ => ({ status := 500, body := .error "Failed to fetch groups." }, [.getAllChats])
    | .ok none => ({ status := 200, body := .groups [] }, [.getAllChats])
    | .ok (some chats) =>
      if chats.length = 0 then ({ status := 200, body := .groups [] }, [.getAllChats])
      else
        match (filterGroups chats).bind mapGroups with
        | some groups => ({ status := 200, body := .groups groups }, [.getAllChats])
        | none => ({ status := 500, body := .error "Failed to fetch groups." }, [.getAllChats])

/-! ## `server.js`: `POST /send-group-message` -/

/-- The allow-list `allowedImageFormats`. -/
def allowedImageFormats : List String := ["gif", "png", "jpg", "jpeg", "webp"]

/-- The response of the outer `catch` block. -/
def failedToSend : Response := { status := 500, body := .error "Failed to send message." }

/-- The handler of `POST /send-group-message`: the response and the effects. -/
def sendGroupMessage (env : Env) (client : Option Client) (req : GroupMessageRequest) :
    Response × List Effect :=
  let timestamp := env.now
  match req.groupId with
  | none => ({ status := 400, body := .error "Group ID and message are required!" }, [])
  | some groupId =>
    if !truthy (some groupId) || !truthy req.message then
      ({ status := 400, body := .error "Group ID and message are required!" }, [])
    else
      match client with
      | none => (failedToSend, [])
      | some c =>
        match c.isConnected 0 with
        | some _ => (failedToSend, [.isConnected])
        | none =>
          let ok : Response := { status := 200, body := .sent "Sent ✅" groupId timestamp }
          match req.file with
          | some f =>
            let filePath := f.path
            let fileExt := removeFirstDot (toLowerCase (env.extname filePath))
            if fileExt ∈ allowedImageFormats then
              match env.readFileBase64 filePath with
              | none =>
                ({ status := 500, body := .error "Failed to convert file to base64." },
                  [.isConnected, .readFileSync filePath])
              | some base64 =>
                let call :=
                  Effect.sendImageFromBase64 groupId base64 (env.basename filePath) req.message
                match c.sendImageFromBase64 0 groupId base64 (env.basename filePath)
                    req.message with
                | some _ => (failedToSend, [.isConnected, .readFileSync filePath, call])
                | none =>
                  (ok, [.isConnected, .readFileSync filePath, call, .unlinkSync filePath])
            else
              let call := Effect.sendFile groupId filePath (env.basename filePath) req.message
              match c.sendFile 0 groupId filePath (env.basename filePath) req.message with
              | some _ => (failedToSend, [.isConnected, call])
              | none => (ok, [.isConnected, call, .unlinkSync filePath])
          | none =>
            let call := Effect.sendText groupId req.message
            match c.sendText 0 groupId req.message with
            | some _ => (failedToSend, [.isConnected, call])
            | none => (ok, [.isConnected, call])

/-! ## Sample environment and clients for the concrete instances -/

/-- A cut of the `mime-db` table behind `mime.extension`. -/
def sampleMimeExtension (mimetype : String) : Option String :=
  if mimetype = "video/mp4" then some "mp4"
  else if mimetype = "image/png" then some "png"
  else if mimetype = "image/jpeg" then some "jpeg"
  else if mimetype = "application/pdf" then some "pdf"
  else if mimetype = "text/plain" then some "txt"
  else none

/-- The characters after the last separator `/` or `\` (`path.basename` on a path that does
not end in a separator). -/
def sampleBasename (p : String) : String :=
  String.mk (p.toList.reverse.takeWhile (fun c => c ≠ '/' ∧ c ≠ '\\')).reverse

/-- The part of the base name from its last dot on, empty when the base name has no dot or
only a leading one (`path.extname`). -/
def sampleExtname (p : String) : String :=
  let base := (sampleBasename p).toList
  let ext := (base.reverse.takeWhile (fun c => c ≠ '.')).reverse
  if ext.length + 1 < base.length then String.mk ('.' :: ext) else ""

/-- `JSON.parse` on the two texts used below; any other text counts as malformed. -/
def sampleJsonParse (s : String) : Option NumbersValue :=
  if s = "[\"9876543210\"]" then some (.array ["9876543210"])
  else if s = "[\"9123456789\"]" then some (.array ["9123456789"])
  else if s = "[]" then some (.array [])
  else if s = "\x7b\x7d" then some .other
  else none

/-- A sample environment. -/
def sampleEnv : Env :=
  { jsonParse := sampleJsonParse
    mimeExtension := sampleMimeExtension
    extname := sampleExtname
    basename := sampleBasename
    readFileBase64 := fun _ => some "AAAA"
    now := "2025-01-01 00:00:00" }

/-- A client every call of which resolves. -/
def okClient : Client :=
  { isConnected := fun _ => none
    sendText := fun _ _ _ => none
    sendFile := fun _ _ _ _ _ => none
    sendImageFromBase64 := fun _ _ _ _ _ => none
    getAllChats := .ok (some []) }

/-- A client whose sends to the recipient at index `1` reject with an object that carries
the message `"not found"`. -/
def flakyClient : Client :=
  { okClient with
    sendText := fun i _ _ => if i = 1 then some (.value (some "not found")) else none
    sendFile := fun i _ _ _ _ => if i = 1 then some (.value (some "not found")) else none }

/-- A client whose sends to the recipient at index `0` reject with `undefined`. -/
def nullishClient : Client :=
  { okClient with
    sendText := fun i _ _ => if i = 0 then some .nullish else none
    sendFile := fun i _ _ _ _ => if i = 0 then some .nullish else none }

/-- The sample environment with a `mime` table that spells the extension of a video in
capitals. -/
def capitalsEnv : Env :=
  { sampleEnv with
    mimeExtension := fun mimetype => if mimetype = "video/mp4" then some "MP4" else none }

/-- No call made for the recipient at index `i` is rejected with `undefined` or `null`. -/
def Client.NoNullishAt (c : Client) (i : Nat) : Prop :=
  c.isConnected i ≠ some .nullish ∧
  (∀ d m, c.sendText i d m ≠ some .nullish) ∧
  (∀ d p n m, c.sendFile i d p n m ≠ some .nullish)

/-- No call of the client is ever rejected with `undefined` or `null`. -/
def Client.NeverNullish (c : Client) : Prop := ∀ i, c.NoNullishAt i

/-- The request field carries the array `numbers`, as an array or as JSON text of one. -/
def CarriesNumbers (env : Env) (field : NumbersField) (numbers : List String) : Prop :=
  field = .value (.array numbers) ∨ ∃ s, field = .text s ∧ env.jsonParse s = some (.array numbers)

/-- The destination of a send. -/
def Effect.dest : Effect → Option String
  | .sendText d _ => some d
  | .sendFile d _ _ _ => some d
  | .sendImageFromBase64 d _ _ _ => some d
  | _ => none

/-- The entry of `/get-groups` for a chat, when the chat is a group. -/
def groupEntry (chat : Chat) : Option Group :=
  match chat.id with
  | some id =>
    if chat.isGroup = true ∨ id.server = "g.us" then
      some { name := (match chat.name with
                      | some n => if n = "" then "Unnamed Group" else n
                      | none => "Unnamed Group"),
             id := id.serialized }
    else none
  | none => none

/-! ## Sample requests and chats -/

/-- An upload whose MIME type `mime.extension` does not know. -/
def unknownTypeRequest : SendMediaRequest :=
  { numbers := .text "[\"9876543210\"]", message := some "hello"
    file := some { path := "uploads/0a1b2c", mimetype := "application/x-unknown", size := 2048 } }

/-- A video of 64 MB and one byte to two recipients. -/
def bigVideoRequest : SendMediaRequest :=
  { numbers := .value (.array ["9876543210", "9876543211"]), message := some "hello"
    file := some { path := "uploads/0a1b2c", mimetype := "video/mp4", size := 67108865 } }

/-- A video of exactly 64 MB to two recipients. -/
def exactVideoRequest : SendMediaRequest :=
  { numbers := .value (.array ["9876543210", "9876543211"]), message := some "hello"
    file := some { path := "uploads/0a1b2c", mimetype := "video/mp4", size := 67108864 } }

/-- A small PDF to three recipients. -/
def pdfThreeRequest : SendMediaRequest :=
  { numbers := .value (.array ["9876543210", "919876543211", "9876543212"])
    message := some "hello"
    file := some { path := "uploads/0a1b2c", mimetype := "application/pdf", size := 2048 } }

/-- A text message to two recipients. -/
def textTwoRequest : SendMediaRequest :=
  { numbers := .value (.array ["9876543210", "9876543211"]), message := some "hello"
    file := none }

/-- A small PDF to two recipients. -/
def pdfTwoRequest : SendMediaRequest :=
  { numbers := .value (.array ["9876543210", "9876543211"]), message := some "hello"
    file := some { path := "uploads/0a1b2c", mimetype := "application/pdf", size := 2048 } }

/-- The number `9123456789` as the page sends it. -/
def tenDigit91Request : SendMediaRequest :=
  { numbers := .text "[\"9123456789\"]", message := some "hello", file := none }

/-- Three chats: a flagged group without a name, a contact, and a chat on "g.us" with a name. -/
def sampleChats : List Chat :=
  [{ isGroup := true, id := some { server := "g.us", serialized := "1203630@g.us" },
     name := none },
   { isGroup := false, id := some { server := "c.us", serialized := "919876543210@c.us" },
     name := some "Asha" },
   { isGroup := false, id := some { server := "g.us", serialized := "1203631@g.us" },
     name := some "Family" }]

/-! ## Lemmas on `/send-media` -/

theorem parseNumbers_of_carries {env : Env} {field : NumbersField} {numbers : List String}
    (h : CarriesNumbers env field numbers) (hne : numbers ≠ []) :
    parseNumbers env field = .ok numbers := by
  cases numbers with
  | nil => exact absurd rfl hne
  | cons n ns =>
    rcases h with h | ⟨s, h, hp⟩
    · subst h; rfl
    · subst h; simp [parseNumbers, hp]

theorem videoTooLarge_iff (env : Env) (filePath : String) (size : Nat) :
    videoTooLarge env filePath size = true ↔
      toLowerCase (env.extname filePath) = ".mp4" ∧ 67108864 < size := by
  have hq : ((size : ℚ) / (1024 * 1024) > 64) ↔ 67108864 < size := by
    rw [gt_iff_lt, lt_div_iff₀ (by norm_num)]
    constructor
    · intro h
      have h2 : ((67108864 : ℕ) : ℚ) < (size : ℚ) := by push_cast; linarith
      exact_mod_cast h2
    · intro h
      have h2 : ((67108864 : ℕ) : ℚ) < (size : ℚ) := by exact_mod_cast h
      push_cast at h2; linarith
  simp only [videoTooLarge, Bool.and_eq_true, decide_eq_true_eq, hq]

/-- A character is not an ASCII capital and is its own lower case, or it is one of the 26
ASCII capitals. -/
theorem toLower_cases (c : Char) :
    Char.toLower c = c ∨ ∃ n, 65 ≤ n ∧ n ≤ 90 ∧ c = Char.ofNat n := by
  by_cases h : c.toNat ≥ 65 ∧ c.toNat ≤ 90
  · exact Or.inr ⟨c.toNat, h.1, h.2, (Char.ofNat_toNat c).symm⟩
  · left
    unfold Char.toLower
    simp only [h, if_false]

theorem toLower_eq_dot {c : Char} (h : Char.toLower c = '.') : c = '.' := by
  rcases toLower_cases c with h' | ⟨n, h1, h2, rfl⟩
  · rw [← h', h]
  · revert h; interval_cases n <;> decide

theorem toLower_eq_four {c : Char} (h : Char.toLower c = '4') : c = '4' := by
  rcases toLower_cases c with h' | ⟨n, h1, h2, rfl⟩
  · rw [← h', h]
  · revert h; interval_cases n <;> decide

theorem toLower_eq_m {c : Char} (h : Char.toLower c = 'm') : c = 'm' ∨ c = 'M' := by
  rcases toLower_cases c with h' | ⟨n, h1, h2, rfl⟩
  · left; rw [← h', h]
  · revert h; interval_cases n <;> decide

theorem toLower_eq_p {c : Char} (h : Char.toLower c = 'p') : c = 'p' ∨ c = 'P' := by
  rcases toLower_cases c with h' | ⟨n, h1, h2, rfl⟩
  · left; rw [← h', h]
  · revert h; interval_cases n <;> decide

/-- The `toLowerCase()` of a string is ".mp4" exactly for the four spellings of ".mp4" in
small and capital letters. -/
theorem toLowerCase_eq_mp4_iff (s : String) :
    toLowerCase s = ".mp4" ↔ s ∈ [".mp4", ".mP4", ".Mp4", ".MP4"] := by
  constructor
  · intro h
    have hl : s.toList.map Char.toLower = ['.', 'm', 'p', '4'] := by
      have := congrArg String.toList h
      simpa [toLowerCase] using this
    obtain ⟨l⟩ := s
    simp only [String.toList] at hl
    rcases l with _ | ⟨a, _ | ⟨b, _ | ⟨c, _ | ⟨d, _ | ⟨e, l⟩⟩⟩⟩⟩
    · simp at hl
    · simp at hl
    · simp at hl
    · simp at hl
    · simp only [List.map_cons, List.map_nil, List.cons.injEq, and_true] at hl
      obtain ⟨ha, hb, hc, hd⟩ := hl
      have ha' := toLower_eq_dot ha
      have hd' := toLower_eq_four hd
      subst ha' hd'
      rcases toLower_eq_m hb with rfl | rfl <;> rcases toLower_eq_p hc with rfl | rfl <;> decide
    · simp at hl
  · intro h
    simp only [List.mem_cons, List.mem_singleton, List.not_mem_nil, or_false] at h
    rcases h with rfl | rfl | rfl | rfl <;> decide

theorem startsWith_iff (s pre : String) : startsWith s pre = true ↔ pre.toList <+: s.toList := by
  simp [startsWith, List.isPrefixOf_iff_prefix]

theorem withCountryCode_startsWith (number : String) :
    startsWith (withCountryCode number) "91" = true := by
  unfold withCountryCode
  by_cases h : startsWith number "91" = true
  · simp [h]
  · simp only [h, not_false_eq_true, if_true]
    rw [startsWith_iff]
    exact ⟨number.toList, by simp [String.toList, String.data_append]⟩

theorem catchBlock_entry {number : String} {e : Thrown} {r : SendResult}
    (h : catchBlock number e = some r) : r.number = number ∧ r.status = "Failed ❌" := by
  cases e with
  | nullish => cases h
  | value message => cases h; exact ⟨rfl, rfl⟩

theorem catchBlock_isSome {number : String} {e : Thrown} (h : e ≠ .nullish) :
    ∃ r, catchBlock number e = some r := by
  cases e with
  | nullish => exact absurd rfl h
  | value message => exact ⟨_, rfl⟩

theorem attemptSend_entry (env : Env) (client : Option Client) (message : Option String)
    (filePath : Option String) (i : Nat) (number : String) (r : SendResult)
    (h : (attemptSend env client message filePath i number).1 = some r) :
    r.number = number ∧ (r.status = "Sent ✅" ∨ r.status = "Failed ❌") := by
  unfold attemptSend at h
  cases client with
  | none => cases h; exact ⟨rfl, Or.inr rfl⟩
  | some c =>
    simp only at h
    cases hc : c.isConnected i with
    | some e =>
      rw [hc] at h
      exact ⟨(catchBlock_entry h).1, Or.inr (catchBlock_entry h).2⟩
    | none =>
      rw [hc] at h
      cases filePath with
      | some fp =>
        simp only at h
        cases hs : c.sendFile i (number ++ "@c.us") fp (env.basename fp) message with
        | some e =>
          rw [hs] at h
          exact ⟨(catchBlock_entry h).1, Or.inr (catchBlock_entry h).2⟩
        | none => rw [hs] at h; cases h; exact ⟨rfl, Or.inl rfl⟩
      | none =>
        simp only at h
        cases hs : c.sendText i (number ++ "@c.us") message with
        | some e =>
          rw [hs] at h
          exact ⟨(catchBlock_entry h).1, Or.inr (catchBlock_entry h).2⟩
        | none => rw [hs] at h; cases h; exact ⟨rfl, Or.inl rfl⟩

theorem attemptSend_isSome (env : Env) (client : Option Client) (message : Option String)
    (filePath : Option String) (i : Nat) (number : String)
    (h : ∀ c, client = some c → c.NoNullishAt i) :
    ∃ r, (attemptSend env client message filePath i number).1 = some r := by
  unfold attemptSend
  cases client with
  | none => exact ⟨_, rfl⟩
  | some c =>
    obtain ⟨h1, h2, h3⟩ := h c rfl
    simp only
    cases hc : c.isConnected i with
    | some e => exact catchBlock_isSome (fun he => h1 (by rw [hc, he]))
    | none =>
      cases filePath with
      | some fp =>
        simp only
        cases hs : c.sendFile i (number ++ "@c.us") fp (env.basename fp) message with
        | some e =>
          exact catchBlock_isSome (fun he => h3 _ _ _ _ (by rw [hs, he]))
        | none => exact ⟨_, rfl⟩
      | none =>
        simp only
        cases hs : c.sendText i (number ++ "@c.us") message with
        | some e => exact catchBlock_isSome (fun he => h2 _ _ (by rw [hs, he]))
        | none => exact ⟨_, rfl⟩

theorem attemptSend_effects (env : Env) (client : Option Client) (message : Option String)
    (filePath : Option String) (i : Nat) (number : String) :
    ∀ e ∈ (attemptSend env client message filePath i number).2,
      e.isUnlink = false ∧ (e.isSend = true → e.dest = some (number ++ "@c.us")) := by
  unfold attemptSend
  cases client with
  | none => simp
  | some c =>
    cases hc : c.isConnected i with
    | some e => simp [hc, Effect.isUnlink, Effect.isSend]
    | none =>
      cases filePath with
      | some fp =>
        cases hs : c.sendFile i (number ++ "@c.us") fp (env.basename fp) message <;>
          simp [hc, hs, Effect.isUnlink, Effect.isSend, Effect.dest]
      | none =>
        cases hs : c.sendText i (number ++ "@c.us") message <;>
          simp [hc, hs, Effect.isUnlink, Effect.isSend, Effect.dest]

theorem sendOne_entry (env : Env) (client : Option Client) (message : Option String)
    (file : Option (String × Nat)) (i : Nat) (number : String) (r : SendResult)
    (h : (sendOne env client message file i number).1 = some r) :
    r.number = withCountryCode number ∧ (r.status = "Sent ✅" ∨ r.status = "Failed ❌") := by
  unfold sendOne at h
  cases file with
  | none => exact attemptSend_entry _ _ _ _ _ _ r h
  | some f =>
    obtain ⟨fp, size⟩ := f
    by_cases hv : videoTooLarge env fp size = true
    · simp only [hv, if_true] at h
      cases h
      exact ⟨rfl, Or.inr rfl⟩
    · simp only [hv, Bool.false_eq_true, if_false] at h
      exact attemptSend_entry _ _ _ _ _ _ r h

theorem sendOne_isSome (env : Env) (client : Option Client) (message : Option String)
    (file : Option (String × Nat)) (i : Nat) (number : String)
    (h : ∀ c, client = some c → c.NoNullishAt i) :
    ∃ r, (sendOne env client message file i number).1 = some r := by
  unfold sendOne
  cases file with
  | none => exact attemptSend_isSome _ _ _ _ _ _ h
  | some f =>
    obtain ⟨fp, size⟩ := f
    by_cases hv : videoTooLarge env fp size = true
    · simp only [hv, if_true]
      exact ⟨_, rfl⟩
    · simp only [hv, Bool.false_eq_true, if_false]
      exact attemptSend_isSome _ _ _ _ _ _ h

theorem sendOne_effects (env : Env) (client : Option Client) (message : Option String)
    (file : Option (String × Nat)) (i : Nat) (number : String) :
    ∀ e ∈ (sendOne env client message file i number).2,
      e.isUnlink = false ∧
        (e.isSend = true → e.dest = some (withCountryCode number ++ "@c.us")) := by
  unfold sendOne
  cases file with
  | none => exact attemptSend_effects _ _ _ _ _ _
  | some f =>
    obtain ⟨fp, size⟩ := f
    by_cases h : videoTooLarge env fp size = true
    · simp [h, Effect.isUnlink, Effect.isSend]
    · simp only [h, Bool.false_eq_true, if_false]
      intro e he
      rcases List.mem_cons.1 he with rfl | he
      · simp [Effect.isUnlink, Effect.isSend]
      · exact attemptSend_effects _ _ _ _ _ _ e he

theorem sendOne_congr (env : Env) (c c' : Client) (message : Option String)
    (file : Option (String × Nat)) (i : Nat) (number : String)
    (hconn : c'.isConnected i = c.isConnected i) (htext : c'.sendText i = c.sendText i)
    (hfile : c'.sendFile i = c.sendFile i) :
    sendOne env (some c') message file i number = sendOne env (some c) message file i number := by
  simp only [sendOne, attemptSend, hconn, htext, hfile]

/-- A loop in which no exception leaves the body pushes one entry per recipient, the entry of
the loop body for that recipient. -/
theorem sendLoop_entries (env : Env) (client : Option Client) (message : Option String)
    (file : Option (String × Nat))
    (hsome : ∀ j n, ∃ r, (sendOne env client message file j n).1 = some r) :
    ∀ (numbers : List String) (i : Nat),
      ∃ rs, (sendLoop env client message file i numbers).1 = some rs ∧
        rs.length = numbers.length ∧
        ∀ k n, numbers[k]? = some n →
          rs[k]? = (sendOne env client message file (i + k) n).1 := by
  intro numbers
  induction numbers with
  | nil => intro i; exact ⟨[], rfl, rfl, by intro k n h; simp at h⟩
  | cons n0 ns ih =>
    intro i
    obtain ⟨r0, hr0⟩ := hsome i n0
    obtain ⟨rs, hrs, hlen, hk⟩ := ih (i + 1)
    refine ⟨r0 :: rs, ?_, by simp [hlen], ?_⟩
    · simp only [sendLoop]
      cases h1 : sendOne env client message file i n0 with
      | mk o es =>
        rw [h1] at hr0
        simp only at hr0
        subst hr0
        cases h2 : sendLoop env client message file (i + 1) ns with
        | mk o2 es2 =>
          rw [h2] at hrs
          simp only at hrs
          subst hrs
          rfl
    · intro k n hkn
      cases k with
      | zero =>
        simp only [List.getElem?_cons_zero, Option.some.injEq] at hkn
        subst hkn
        simp [hr0]
      | succ k =>
        simp only [List.getElem?_cons_succ] at hkn ⊢
        rw [hk k n hkn]
        congr 2
        omega

theorem sendLoop_results_map (env : Env) (client : Option Client) (message : Option String)
    (file : Option (String × Nat)) (g : String → SendResult)
    (h : ∀ i n, (sendOne env client message file i n).1 = some (g n)) :
    ∀ (numbers : List String) (i : Nat),
      (sendLoop env client message file i numbers).1 = some (numbers.map g) := by
  intro numbers
  induction numbers with
  | nil => intro i; rfl
  | cons n ns ih =>
    intro i
    have h1 := h i n
    have h2 := ih (i + 1)
    simp only [sendLoop]
    cases h1' : sendOne env client message file i n with
    | mk o es =>
      rw [h1'] at h1
      simp only at h1
      subst h1
      cases h2' : sendLoop env client message file (i + 1) ns with
      | mk o2 es2 =>
        rw [h2'] at h2
        simp only at h2
        subst h2
        rfl

theorem sendLoop_effects_all (env : Env) (client : Option Client) (message : Option String)
    (file : Option (String × Nat)) (P : Effect → Prop)
    (h : ∀ i n, ∀ e ∈ (sendOne env client message file i n).2, P e) :
    ∀ (numbers : List String) (i : Nat),
      ∀ e ∈ (sendLoop env client message file i numbers).2, P e := by
  intro numbers
  induction numbers with
  | nil => intro i e he; simp [sendLoop] at he
  | cons n ns ih =>
    intro i e he
    have h1 := h i n
    have h2 := ih (i + 1)
    simp only [sendLoop] at he
    cases h1' : sendOne env client message file i n with
    | mk o es =>
      rw [h1'] at he h1
      cases o with
      | none => exact h1 e he
      | some r =>
        simp only at he
        cases h2' : sendLoop env client message file (i + 1) ns with
        | mk o2 es2 =>
          rw [h2'] at he h2
          have hmem : e ∈ es ++ es2 := by
            cases o2 <;> exact he
          rcases List.mem_append.1 hmem with hm | hm
          · exact h1 e hm
          · exact h2 e hm

theorem sendLoop_no_unlink (env : Env) (client : Option Client) (message : Option String)
    (file : Option (String × Nat)) (numbers : List String) (i : Nat) :
    ∀ e ∈ (sendLoop env client message file i numbers).2, e.isUnlink = false :=
  sendLoop_effects_all env client message file (fun e => e.isUnlink = false)
    (fun i n e he => (sendOne_effects env client message file i n e he).1) numbers i

/-- In a loop in which no exception leaves the body, the effects of the body for every
recipient are among the effects of the loop. -/
theorem sendLoop_effects_mem (env : Env) (client : Option Client) (message : Option String)
    (file : Option (String × Nat))
    (hsome : ∀ j n, ∃ r, (sendOne env client message file j n).1 = some r) :
    ∀ (numbers : List String) (i k : Nat) (n : String), numbers[k]? = some n →
      ∀ e ∈ (sendOne env client message file (i + k) n).2,
        e ∈ (sendLoop env client message file i numbers).2 := by
  intro numbers
  induction numbers with
  | nil => intro i k n h; simp at h
  | cons n0 ns ih =>
    intro i k n hk e he
    obtain ⟨r0, hr0⟩ := hsome i n0
    obtain ⟨rs, hrs, _, _⟩ := sendLoop_entries env client message file hsome ns (i + 1)
    have hloop : (sendLoop env client message file i (n0 :: ns)).2 =
        (sendOne env client message file i n0).2 ++
          (sendLoop env client message file (i + 1) ns).2 := by
      simp only [sendLoop]
      cases h1 : sendOne env client message file i n0 with
      | mk o es =>
        rw [h1] at hr0
        simp only at hr0
        subst hr0
        cases h2 : sendLoop env client message file (i + 1) ns with
        | mk o2 es2 =>
          rw [h2] at hrs
          simp only at hrs
          subst hrs
          rfl
    rw [hloop, List.mem_append]
    cases k with
    | zero =>
      simp only [List.getElem?_cons_zero, Option.some.injEq] at hk
      subst hk
      exact Or.inl he
    | succ k =>
      simp only [List.getElem?_cons_succ] at hk
      right
      apply ih (i + 1) k n hk
      have : i + 1 + k = i + (k + 1) := by omega
      rw [this]
      exact he

/-- The response and the effects of `/send-media` once the request reaches the loop. -/
theorem sendMedia_of_carries (env : Env) (client : Option Client) (req : SendMediaRequest)
    (numbers : List String) (h : CarriesNumbers env req.numbers numbers) (hne : numbers ≠ []) :
    sendMedia env client req =
      match req.file with
      | some f =>
        match env.mimeExtension f.mimetype with
        | some extension =>
          match sendLoop env client req.message
              (some (f.path ++ "." ++ extension, f.size)) 0 numbers with
          | (some results, es) =>
            (some { status := 200, body := .results results },
              [Effect.renameSync f.path (f.path ++ "." ++ extension)] ++ es ++
                [Effect.unlinkSync (f.path ++ "." ++ extension)])
          | (none, es) => (none, [Effect.renameSync f.path (f.path ++ "." ++ extension)] ++ es)
        | none => (some { status := 400, body := .error "Unsupported file type" }, [])
      | none =>
        match sendLoop env client req.message none 0 numbers with
        | (some results, es) => (some { status := 200, body := .results results }, es)
        | (none, es) => (none, es) := by
  unfold sendMedia
  rw [parseNumbers_of_carries h hne]

/-- The response of `/send-media` without a file when the loop runs to its end. -/
theorem sendMedia_no_file (env : Env) (client : Option Client) (req : SendMediaRequest)
    (numbers : List String) (h : CarriesNumbers env req.numbers numbers) (hne : numbers ≠ [])
    (hfile : req.file = none) (rs : List SendResult)
    (hrs : (sendLoop env client req.message none 0 numbers).1 = some rs) :
    sendMedia env client req =
      (some { status := 200, body := .results rs },
        (sendLoop env client req.message none 0 numbers).2) := by
  rw [sendMedia_of_carries env client req numbers h hne, hfile]
  simp only
  cases hl : sendLoop env client req.message none 0 numbers with
  | mk o es =>
    rw [hl] at hrs
    simp only at hrs
    subst hrs
    rfl

/-- The response of `/send-media` with a file of a known type when the loop runs to its end. -/
theorem sendMedia_file (env : Env) (client : Option Client) (req : SendMediaRequest)
    (numbers : List String) (h : CarriesNumbers env req.numbers numbers) (hne : numbers ≠ [])
    (f : UploadedFile) (ext : String) (hfile : req.file = some f)
    (hext : env.mimeExtension f.mimetype = some ext) (rs : List SendResult)
    (hrs : (sendLoop env client req.message
      (some (f.path ++ "." ++ ext, f.size)) 0 numbers).1 = some rs) :
    sendMedia env client req =
      (some { status := 200, body := .results rs },
        [Effect.renameSync f.path (f.path ++ "." ++ ext)] ++
          (sendLoop env client req.message (some (f.path ++ "." ++ ext, f.size)) 0 numbers).2 ++
          [Effect.unlinkSync (f.path ++ "." ++ ext)]) := by
  rw [sendMedia_of_carries env client req numbers h hne, hfile]
  simp only [hext]
  cases hl : sendLoop env client req.message (some (f.path ++ "." ++ ext, f.size)) 0 numbers with
  | mk o es =>
    rw [hl] at hrs
    simp only at hrs
    subst hrs
    rfl

theorem flakyClient_neverNullish : flakyClient.NeverNullish := by
  intro i
  refine ⟨by simp [flakyClient, okClient], ?_, ?_⟩
  · intro d m
    simp only [flakyClient]
    split <;> simp
  · intro d p n m
    simp only [flakyClient]
    split <;> simp

theorem okClient_neverNullish : okClient.NeverNullish := by
  intro i
  exact ⟨by simp [okClient], by intro d m; simp [okClient], by intro d p n m; simp [okClient]⟩

/-! ## `/send-media`: results -/

/-- C1, as stated, fails: a request with a non-empty array of numbers and an attachment
whose MIME type has no known extension is answered with status 400 and the error
"Unsupported file type"; there is no `results` list and nothing is sent. -/
theorem sendMedia_unsupported_type_has_no_results :
    CarriesNumbers sampleEnv unknownTypeRequest.numbers ["9876543210"] ∧
    sendMedia sampleEnv (some okClient) unknownTypeRequest =
      (some { status := 400, body := .error "Unsupported file type" }, []) ∧
    ¬ ∃ results : List SendResult,
      (sendMedia sampleEnv (some okClient) unknownTypeRequest).1 =
        some { status := 200, body := .results results } := by
  have h : sendMedia sampleEnv (some okClient) unknownTypeRequest =
      (some { status := 400, body := .error "Unsupported file type" }, []) := by decide
  refine ⟨Or.inr ⟨_, rfl, by decide⟩, h, ?_⟩
  rintro ⟨results, hr⟩
  rw [h] at hr
  cases hr

/-- C1 (amended): take a non-empty list `numbers` of K strings, any message, and any
behaviour of the client (ready or not, each call resolving or throwing) in which no call is
rejected with `undefined` or `null`. With an attachment whose MIME type has no known
extension `/send-media` answers 400 "Unsupported file type" with no effect and no `results`.
With no attachment, or one whose MIME type has a known extension, it answers 200 with a
`results` list of exactly K entries; entry i has as `number` the i-th input with the country
code, and as `status` one of "Sent ✅" and "Failed ❌". -/
theorem sendMedia_results_in_order (env : Env) (client : Option Client)
    (req : SendMediaRequest) (numbers : List String)
    (hnum : CarriesNumbers env req.numbers numbers) (hne : numbers ≠ [])
    (hthrown : ∀ c, client = some c → c.NeverNullish) :
    (∀ f, req.file = some f → env.mimeExtension f.mimetype = none →
      sendMedia env client req =
        (some { status := 400, body := .error "Unsupported file type" }, [])) ∧
    ((∀ f, req.file = some f → env.mimeExtension f.mimetype ≠ none) →
      ∃ results : List SendResult,
        (sendMedia env client req).1 = some { status := 200, body := .results results } ∧
        results.length = numbers.length ∧
        ∀ (i : Nat) (n : String), numbers[i]? = some n →
          ∃ r : SendResult, results[i]? = some r ∧ r.number = withCountryCode n ∧
            (r.status = "Sent ✅" ∨ r.status = "Failed ❌")) := by
  constructor
  · intro f hf hext
    rw [sendMedia_of_carries env client req numbers hnum hne, hf]
    simp only [hext]
  · intro hfile
    have key : ∀ file : Option (String × Nat),
        ∃ rs, (sendLoop env client req.message file 0 numbers).1 = some rs ∧
          rs.length = numbers.length ∧
          ∀ (i : Nat) (n : String), numbers[i]? = some n →
            ∃ r : SendResult, rs[i]? = some r ∧ r.number = withCountryCode n ∧
              (r.status = "Sent ✅" ∨ r.status = "Failed ❌") := by
      intro file
      have hsome : ∀ j n, ∃ r, (sendOne env client req.message file j n).1 = some r :=
        fun j n => sendOne_isSome env client req.message file j n (fun c hc => hthrown c hc j)
      obtain ⟨rs, hrs, hlen, hk⟩ := sendLoop_entries env client req.message file hsome numbers 0
      refine ⟨rs, hrs, hlen, ?_⟩
      intro i n hi
      obtain ⟨r, hr⟩ := hsome (0 + i) n
      refine ⟨r, by rw [hk i n hi, hr], ?_⟩
      exact sendOne_entry env client req.message file (0 + i) n r hr
    cases hf : req.file with
    | none =>
      obtain ⟨rs, hrs, hlen, hk⟩ := key none
      exact ⟨rs, by rw [sendMedia_no_file env client req numbers hnum hne hf rs hrs], hlen, hk⟩
    | some f =>
      cases hext : env.mimeExtension f.mimetype with
      | none => exact absurd hext (hfile f hf)
      | some ext =>
        obtain ⟨rs, hrs, hlen, hk⟩ := key (some (f.path ++ "." ++ ext, f.size))
        exact ⟨rs, by rw [sendMedia_file env client req numbers hnum hne f ext hf hext rs hrs],
          hlen, hk⟩

/-- An instance of `sendMedia_results_in_order`: a PDF sent to three numbers by a client
that rejects the send to the second one; the three entries come in the order of the input,
the second one "Failed ❌". -/
theorem sendMedia_results_in_order_witness :
    CarriesNumbers sampleEnv pdfThreeRequest.numbers
      ["9876543210", "919876543211", "9876543212"] ∧
    flakyClient.NeverNullish ∧
    (sendMedia sampleEnv (some flakyClient) pdfThreeRequest).1 =
      some { status := 200, body := .results
              [{ number := "919876543210", status := "Sent ✅", error := none },
               { number := "919876543211", status := "Failed ❌", error := some "not found" },
               { number := "919876543212", status := "Sent ✅", error := none }] } ∧
    ∃ results : List SendResult,
      (sendMedia sampleEnv (some flakyClient) pdfThreeRequest).1 =
        some { status := 200, body := .results results } ∧
      results.length = ["9876543210", "919876543211", "9876543212"].length ∧
      ∀ (i : Nat) (n : String), ["9876543210", "919876543211", "9876543212"][i]? = some n →
        ∃ r : SendResult, results[i]? = some r ∧ r.number = withCountryCode n ∧
          (r.status = "Sent ✅" ∨ r.status = "Failed ❌") :=
  ⟨Or.inl rfl, flakyClient_neverNullish, by decide,
    (sendMedia_results_in_order sampleEnv (some flakyClient) pdfThreeRequest
      ["9876543210", "919876543211", "9876543212"] (Or.inl rfl) (by decide)
      (fun c hc => by cases hc; exact flakyClient_neverNullish)).2
      (fun f hf => by cases hf; decide)⟩

/-! ## `/send-media`: a rejection with `undefined` or `null` -/

/-- When an exception leaves the loop, `/send-media` sends no response and deletes no file. -/
theorem sendMedia_of_aborted_loop (env : Env) (client : Option Client)
    (req : SendMediaRequest) (numbers : List String)
    (hnum : CarriesNumbers env req.numbers numbers) (hne : numbers ≠ [])
    (hfile : ∀ f, req.file = some f → env.mimeExtension f.mimetype ≠ none)
    (habort : ∀ file, (sendLoop env client req.message file 0 numbers).1 = none) :
    (sendMedia env client req).1 = none ∧
    ∀ e ∈ (sendMedia env client req).2, e.isUnlink = false := by
  rw [sendMedia_of_carries env client req numbers hnum hne]
  cases hf : req.file with
  | none =>
    have h1 := habort none
    have h2 := sendLoop_no_unlink env client req.message none numbers 0
    simp only
    cases hl : sendLoop env client req.message none 0 numbers with
    | mk o es =>
      rw [hl] at h1 h2
      simp only at h1
      subst h1
      exact ⟨rfl, h2⟩
  | some f =>
    cases hext : env.mimeExtension f.mimetype with
    | none => exact absurd hext (hfile f hf)
    | some ext =>
      have h1 := habort (some (f.path ++ "." ++ ext, f.size))
      have h2 := sendLoop_no_unlink env client req.message
        (some (f.path ++ "." ++ ext, f.size)) numbers 0
      simp only [hext]
      cases hl : sendLoop env client req.message
          (some (f.path ++ "." ++ ext, f.size)) 0 numbers with
      | mk o es =>
        rw [hl] at h1 h2
        simp only at h1
        subst h1
        refine ⟨rfl, ?_⟩
        intro e he
        simp only [List.mem_append, List.mem_singleton] at he
        rcases he with rfl | he
        · rfl
        · exact h2 e he

/-- C2, the code where the client rejects the send for the first of two recipients with
`undefined`: the `catch` block throws on `error.message`, so no entry is pushed for the first
recipient, the second recipient is never attempted (the only effects are `isConnected` and
the send to the first number) and the handler sends no response; with a client that rejects
nothing the same request gives two entries and two sends. -/
theorem sendMedia_undefined_rejection_stops_loop :
    sendMedia sampleEnv (some nullishClient) textTwoRequest =
      (none, [.isConnected, .sendText "919876543210@c.us" (some "hello")]) ∧
    (sendLoop sampleEnv (some nullishClient) (some "hello") none 0
      ["9876543210", "9876543211"]).1 = none ∧
    Effect.sendText "919876543211@c.us" (some "hello") ∉
      (sendMedia sampleEnv (some nullishClient) textTwoRequest).2 ∧
    sendMedia sampleEnv (some okClient) textTwoRequest =
      (some { status := 200, body := .results
                [{ number := "919876543210", status := "Sent ✅", error := none },
                 { number := "919876543211", status := "Sent ✅", error := none }] },
        [.isConnected, .sendText "919876543210@c.us" (some "hello"),
         .isConnected, .sendText "919876543211@c.us" (some "hello")]) := by
  decide

/-- C7, the code where the client rejects the send of the file for the first of two
recipients with `undefined`: the exception of the `catch` block leaves the handler before
line 130, so the renamed temporary file is never deleted (the effects hold no `unlinkSync`)
and no response is sent; with a client that rejects nothing the same request ends with the
one deletion. -/
theorem sendMedia_undefined_rejection_leaves_file :
    sendMedia sampleEnv (some nullishClient) pdfTwoRequest =
      (none,
        [.renameSync "uploads/0a1b2c" "uploads/0a1b2c.pdf", .statSync "uploads/0a1b2c.pdf",
         .isConnected, .wait 10000,
         .sendFile "919876543210@c.us" "uploads/0a1b2c.pdf" "0a1b2c.pdf" (some "hello")]) ∧
    (sendMedia sampleEnv (some nullishClient) pdfTwoRequest).2.filter Effect.isUnlink = [] ∧
    (sendMedia sampleEnv (some okClient) pdfTwoRequest).2.filter Effect.isUnlink =
      [.unlinkSync "uploads/0a1b2c.pdf"] := by
  decide

/-! ## `/send-media`: what holds when no call is rejected with `undefined` or `null` -/

/-- With clients none of whose calls is rejected with `undefined` or `null`, entry i of
`results` depends only on recipient i and on what the client does with the calls made for
recipient i: "Failed ❌" with the size error when the size check rejects the file,
"Failed ❌" with the message of the thrown value when `isConnected` or the send throws,
"Sent ✅" otherwise. The loop pushes one entry per recipient, the send for recipient i is
attempted when the file is not rejected and `isConnected` resolves, and a client that
behaves differently on other recipients yields the same entry i. -/
theorem sendLoop_entries_isolated (env : Env) (c c' : Client) (message : Option String)
    (file : Option (String × Nat)) (numbers : List String) (i : Nat) (n : String)
    (hc : c.NeverNullish) (hc' : c'.NeverNullish) (hi : numbers[i]? = some n)
    (hconn : c'.isConnected i = c.isConnected i) (htext : c'.sendText i = c.sendText i)
    (hfile : c'.sendFile i = c.sendFile i) :
    let number := withCountryCode n
    let rejected : Prop := ∃ fp size, file = some (fp, size) ∧
      toLowerCase (env.extname fp) = ".mp4" ∧ 67108864 < size
    let send : Option Thrown :=
      match file with
      | some (fp, _) => c.sendFile i (number ++ "@c.us") fp (env.basename fp) message
      | none => c.sendText i (number ++ "@c.us") message
    let call : Effect :=
      match file with
      | some (fp, _) => .sendFile (number ++ "@c.us") fp (env.basename fp) message
      | none => .sendText (number ++ "@c.us") message
    ∃ results results' : List SendResult,
      (sendLoop env (some c) message file 0 numbers).1 = some results ∧
      (sendLoop env (some c') message file 0 numbers).1 = some results' ∧
      results.length = numbers.length ∧
      (∃ r : SendResult, results[i]? = some r ∧
        (rejected → r = { number := number, status := "Failed ❌",
                          error := some "Video file too large. Max: 64MB." }) ∧
        (¬ rejected → ∀ m, c.isConnected i = some (.value m) →
          r = { number := number, status := "Failed ❌", error := m }) ∧
        (¬ rejected → c.isConnected i = none → ∀ m, send = some (.value m) →
          r = { number := number, status := "Failed ❌", error := m }) ∧
        (¬ rejected → c.isConnected i = none → send = none →
          r = { number := number, status := "Sent ✅", error := none }) ∧
        (r.status = "Failed ❌" ↔ rejected ∨ c.isConnected i ≠ none ∨ send ≠ none)) ∧
      (¬ rejected → c.isConnected i = none →
        call ∈ (sendLoop env (some c) message file 0 numbers).2) ∧
      results'[i]? = results[i]? := by
  intro number rejected send call
  have hsome : ∀ j n, ∃ r, (sendOne env (some c) message file j n).1 = some r :=
    fun j n => sendOne_isSome env (some c) message file j n (fun c₁ h => by cases h; exact hc j)
  have hsome' : ∀ j n, ∃ r, (sendOne env (some c') message file j n).1 = some r :=
    fun j n => sendOne_isSome env (some c') message file j n (fun c₁ h => by cases h; exact hc' j)
  obtain ⟨rs, hrs, hlen, hk⟩ := sendLoop_entries env (some c) message file hsome numbers 0
  obtain ⟨rs', hrs', _, hk'⟩ := sendLoop_entries env (some c') message file hsome' numbers 0
  obtain ⟨r, hr⟩ := hsome (0 + i) n
  have hmem := sendLoop_effects_mem env (some c) message file hsome numbers 0 i n hi
  have hcongr := sendOne_congr env c c' message file i n hconn htext hfile
  simp only [Nat.zero_add] at hr hmem
  have hri : rs[i]? = some r := by rw [hk i n hi]; simpa using hr
  have hri' : rs'[i]? = rs[i]? := by
    rw [hk i n hi, hk' i n hi]; simp only [Nat.zero_add]; rw [hcongr]
  obtain ⟨hn1, hn2, hn3⟩ := hc i
  refine ⟨rs, rs', hrs, hrs', hlen, ⟨r, hri, ?_⟩, ?_, hri'⟩
  · -- the entry
    cases file with
    | none =>
      have hrej : ¬ rejected := by rintro ⟨fp, size, h, _⟩; cases h
      cases hcn : c.isConnected i with
      | some e =>
        cases e with
        | nullish => exact absurd hcn hn1
        | value m =>
          have : r = failedEntry (withCountryCode n) m := by
            simpa [sendOne, attemptSend, hcn, catchBlock] using hr.symm
          subst this
          simp [hrej, failedEntry, number]
      | none =>
        cases hs : c.sendText i (withCountryCode n ++ "@c.us") message with
        | some e =>
          cases e with
          | nullish => exact absurd hs (hn2 _ _)
          | value m =>
            have : r = failedEntry (withCountryCode n) m := by
              simpa [sendOne, attemptSend, hcn, hs, catchBlock] using hr.symm
            subst this
            simp [hrej, failedEntry, number, send, hs]
        | none =>
          have : r = sentEntry (withCountryCode n) := by
            simpa [sendOne, attemptSend, hcn, hs] using hr.symm
          subst this
          simp [hrej, sentEntry, number, send, hs]
    | some f =>
      obtain ⟨fp, size⟩ := f
      by_cases hv : videoTooLarge env fp size = true
      · have hrej : rejected := ⟨fp, size, rfl, (videoTooLarge_iff env fp size).1 hv⟩
        have : r = tooLargeEntry (withCountryCode n) := by
          simpa [sendOne, hv] using hr.symm
        subst this
        simp [hrej, tooLargeEntry, number]
      · have hrej : ¬ rejected := by
          rintro ⟨fp', size', h, h1, h2⟩
          cases h
          exact hv ((videoTooLarge_iff env fp size).2 ⟨h1, h2⟩)
        cases hcn : c.isConnected i with
        | some e =>
          cases e with
          | nullish => exact absurd hcn hn1
          | value m =>
            have : r = failedEntry (withCountryCode n) m := by
              simpa [sendOne, attemptSend, hv, hcn, catchBlock] using hr.symm
            subst this
            simp [hrej, failedEntry, number]
        | none =>
          cases hs : c.sendFile i (withCountryCode n ++ "@c.us") fp (env.basename fp)
              message with
          | some e =>
            cases e with
            | nullish => exact absurd hs (hn3 _ _ _ _)
            | value m =>
              have : r = failedEntry (withCountryCode n) m := by
                simpa [sendOne, attemptSend, hv, hcn, hs, catchBlock] using hr.symm
              subst this
              simp [hrej, failedEntry, number, send, hs]
          | none =>
            have : r = sentEntry (withCountryCode n) := by
              simpa [sendOne, attemptSend, hv, hcn, hs] using hr.symm
            subst this
            simp [hrej, sentEntry, number, send, hs]
  · -- the attempt
    intro hrej hcn
    apply hmem
    cases file with
    | none =>
      cases hs : c.sendText i (withCountryCode n ++ "@c.us") message <;>
        simp [sendOne, attemptSend, hcn, hs, call, number]
    | some f =>
      obtain ⟨fp, size⟩ := f
      have hv : videoTooLarge env fp size = false := by
        cases hv : videoTooLarge env fp size with
        | false => rfl
        | true => exact absurd ⟨fp, size, rfl, (videoTooLarge_iff env fp size).1 hv⟩ hrej
      cases hs : c.sendFile i (withCountryCode n ++ "@c.us") fp (env.basename fp) message <;>
        simp [sendOne, attemptSend, hv, hcn, hs, call, number]

/-- With a client none of whose calls is rejected with `undefined` or `null`, a request with
a file of a known type has as effects the renaming, the effects of the loop, none of which
deletes a file, and one deletion of the renamed file at the end. -/
theorem sendMedia_deletes_file_at_end (env : Env) (client : Option Client)
    (req : SendMediaRequest) (numbers : List String) (f : UploadedFile) (ext : String)
    (hnum : CarriesNumbers env req.numbers numbers) (hne : numbers ≠ [])
    (hthrown : ∀ c, client = some c → c.NeverNullish)
    (hfile : req.file = some f) (hext : env.mimeExtension f.mimetype = some ext) :
    (sendMedia env client req).2 =
      [Effect.renameSync f.path (f.path ++ "." ++ ext)] ++
        (sendLoop env client req.message (some (f.path ++ "." ++ ext, f.size)) 0 numbers).2 ++
        [Effect.unlinkSync (f.path ++ "." ++ ext)] ∧
    (∀ e ∈ (sendLoop env client req.message
      (some (f.path ++ "." ++ ext, f.size)) 0 numbers).2, e.isUnlink = false) ∧
    (sendMedia env client req).2.filter Effect.isUnlink =
      [Effect.unlinkSync (f.path ++ "." ++ ext)] := by
  have hsome : ∀ j n, ∃ r, (sendOne env client req.message
      (some (f.path ++ "." ++ ext, f.size)) j n).1 = some r :=
    fun j n => sendOne_isSome env client req.message _ j n (fun c hc => hthrown c hc j)
  obtain ⟨rs, hrs, _, _⟩ := sendLoop_entries env client req.message _ hsome numbers 0
  have hno := sendLoop_no_unlink env client req.message
    (some (f.path ++ "." ++ ext, f.size)) numbers 0
  rw [sendMedia_file env client req numbers hnum hne f ext hfile hext rs hrs]
  refine ⟨rfl, hno, ?_⟩
  simp only
  rw [List.filter_append, List.filter_append]
  have : List.filter Effect.isUnlink (sendLoop env client req.message
      (some (f.path ++ "." ++ ext, f.size)) 0 numbers).2 = [] := by
    rw [List.filter_eq_nil_iff]
    intro e he
    simp [hno e he]
  rw [this]
  rfl

/-! ## `/send-media`: the country code -/

/-- C3: the number used for a recipient `n` is `"91" ++ n` when `n` does not start with
"91" and `n` itself when it does; either way it starts with "91"; it is the number reported
in the result entry (an entry is pushed whenever no call for the recipient is rejected with
`undefined` or `null`), every send made for the recipient goes to that number followed by
"@c.us", and a text send whose `isConnected` resolves is made to exactly that destination. -/
theorem country_code_normalization (n : String) :
    withCountryCode n = (if startsWith n "91" = true then n else "91" ++ n) ∧
    (startsWith n "91" = true ↔ ['9', '1'] <+: n.toList) ∧
    ['9', '1'] <+: (withCountryCode n).toList ∧
    ∀ (env : Env) (client : Option Client) (message : Option String)
      (file : Option (String × Nat)) (i : Nat),
      (∀ r, (sendOne env client message file i n).1 = some r →
        r.number = withCountryCode n) ∧
      ((∀ c, client = some c → c.NoNullishAt i) →
        ∃ r, (sendOne env client message file i n).1 = some r ∧
          r.number = withCountryCode n) ∧
      (∀ e ∈ (sendOne env client message file i n).2,
        e.isSend = true → e.dest = some (withCountryCode n ++ "@c.us")) ∧
      ∀ c : Client, c.isConnected i = none →
        (sendOne env (some c) message none i n).2 =
          [.isConnected, .sendText (withCountryCode n ++ "@c.us") message] := by
  refine ⟨?_, startsWith_iff n "91", (startsWith_iff _ "91").1 (withCountryCode_startsWith n), ?_⟩
  · unfold withCountryCode
    by_cases h : startsWith n "91" = true <;> simp [h]
  · intro env client message file i
    refine ⟨fun r hr => (sendOne_entry env client message file i n r hr).1, ?_,
      fun e he => (sendOne_effects env client message file i n e he).2, ?_⟩
    · intro h
      obtain ⟨r, hr⟩ := sendOne_isSome env client message file i n h
      exact ⟨r, hr, (sendOne_entry env client message file i n r hr).1⟩
    · intro c hc
      cases hs : c.sendText i (withCountryCode n ++ "@c.us") message <;>
        simp [sendOne, attemptSend, hc, hs]

/-- An instance of `country_code_normalization`: the recipient `9876543210` with a client
whose calls resolve. -/
theorem country_code_normalization_witness :
    withCountryCode "9876543210" = "919876543210" ∧
    (∃ r, (sendOne sampleEnv (some okClient) (some "hello") none 0 "9876543210").1 = some r ∧
      r.number = "919876543210") ∧
    (sendOne sampleEnv (some okClient) (some "hello") none 0 "9876543210").2 =
      [.isConnected, .sendText "919876543210@c.us" (some "hello")] := by
  have h := country_code_normalization "9876543210"
  have hw : withCountryCode "9876543210" = "919876543210" := by rw [h.1]; decide
  have h2 := h.2.2.2 sampleEnv (some okClient) (some "hello") none 0
  refine ⟨hw, ?_, ?_⟩
  · obtain ⟨r, hr, hn⟩ := h2.2.1 (fun c hc => by cases hc; exact okClient_neverNullish 0)
    exact ⟨r, hr, by rw [hn, hw]⟩
  · rw [h2.2.2.2 okClient rfl, hw]
    decide

/-- C4, as stated, fails at the number `9123456789`: the page accepts it as a ten-digit
number, and `/send-media` sends the text to `9123456789@c.us` and reports the number
`9123456789`, ten characters, not the twelve characters `919123456789`. -/
theorem sendMedia_ten_digits_beginning_with_91 :
    isTenDigits "9123456789" = true ∧
    (onInput Collector.init "9123456789").numbers = ["9123456789"] ∧
    sendMedia sampleEnv (some okClient) tenDigit91Request =
      (some { status := 200, body := .results
                [{ number := "9123456789", status := "Sent ✅", error := none }] },
        [.isConnected, .sendText "9123456789@c.us" (some "hello")]) ∧
    withCountryCode "9123456789" ≠ "91" ++ "9123456789" ∧
    (withCountryCode "9123456789").toList.length = 10 := by
  decide

/-- C4 (amended): for every recipient number of exactly ten digits that does not begin with
"91", the number `/send-media` reports and dispatches to is the country code followed by the
ten digits, a string of twelve characters equal to `"91" ++ n`: every entry pushed for the
recipient carries it (and one is pushed whenever no call for the recipient is rejected with
`undefined` or `null`), and a text send whose `isConnected` resolves goes to
`"91" ++ n ++ "@c.us"`. -/
theorem ten_digit_number_gets_country_code (n : String) (h10 : isTenDigits n = true)
    (h91 : startsWith n "91" = false) :
    withCountryCode n = "91" ++ n ∧ (withCountryCode n).toList.length = 12 ∧
    ∀ (env : Env) (client : Option Client) (message : Option String)
      (file : Option (String × Nat)) (i : Nat),
      (∀ r, (sendOne env client message file i n).1 = some r → r.number = "91" ++ n) ∧
      ((∀ c, client = some c → c.NoNullishAt i) →
        ∃ r, (sendOne env client message file i n).1 = some r ∧ r.number = "91" ++ n) ∧
      ∀ c : Client, c.isConnected i = none →
        (sendOne env (some c) message none i n).2 =
          [.isConnected, .sendText ("91" ++ n ++ "@c.us") message] := by
  have hlen : n.toList.length = 10 := by
    simp only [isTenDigits, Bool.and_eq_true, decide_eq_true_eq] at h10
    exact h10.1
  have h : withCountryCode n = "91" ++ n := by simp [withCountryCode, h91]
  refine ⟨h, ?_, ?_⟩
  · rw [h]
    simp only [String.toList, String.data_append, List.length_append] at hlen ⊢
    rw [hlen]
    rfl
  · intro env client message file i
    refine ⟨fun r hr => by rw [(sendOne_entry env client message file i n r hr).1, h], ?_, ?_⟩
    · intro hnn
      obtain ⟨r, hr⟩ := sendOne_isSome env client message file i n hnn
      exact ⟨r, hr, by rw [(sendOne_entry env client message file i n r hr).1, h]⟩
    · intro c hc
      cases hs : c.sendText i ("91" ++ n ++ "@c.us") message <;>
        simp [sendOne, attemptSend, hc, hs, h]

/-- An instance of `ten_digit_number_gets_country_code`: the number `9876543210`. -/
theorem ten_digit_number_gets_country_code_witness :
    isTenDigits "9876543210" = true ∧ startsWith "9876543210" "91" = false ∧
    withCountryCode "9876543210" = "919876543210" ∧
    (withCountryCode "9876543210").toList.length = 12 :=
  ⟨by decide, by decide,
    (ten_digit_number_gets_country_code "9876543210" (by decide) (by decide)).1,
    (ten_digit_number_gets_country_code "9876543210" (by decide) (by decide)).2.1⟩

/-! ## The session that is not ready -/

/-- C5, as stated, fails for `/send-media`: with no client set, a request with one number and
no file is answered with status 200, not with a 500-class status. -/
theorem sendMedia_unready_answers_200 :
    sendMedia sampleEnv none
        { numbers := .value (.array ["9876543210"]), message := some "hello", file := none } =
      (some { status := 200, body := .results
                [{ number := "919876543210", status := "Failed ❌",
                   error := some "Cannot read properties of undefined (reading 'isConnected')" }] },
        []) ∧
    (sendMedia sampleEnv none
        { numbers := .value (.array ["9876543210"]), message := some "hello",
          file := none }).1.map Response.status = some 200 := by
  decide

theorem sendOne_unready (env : Env) (message : Option String) (file : Option (String × Nat))
    (i : Nat) (n : String) :
    ∃ r, (sendOne env none message file i n).1 = some r ∧ r.status = "Failed ❌" ∧
      ∀ e ∈ (sendOne env none message file i n).2, e.isClientCall = false := by
  cases file with
  | none =>
    exact ⟨_, rfl, rfl, by simp [sendOne, attemptSend]⟩
  | some f =>
    obtain ⟨fp, size⟩ := f
    by_cases hv : videoTooLarge env fp size = true
    · refine ⟨tooLargeEntry (withCountryCode n), by simp [sendOne, hv], rfl, ?_⟩
      simp [sendOne, hv, Effect.isClientCall, Effect.isSend]
    · refine ⟨failedEntry (withCountryCode n)
        (some "Cannot read properties of undefined (reading 'isConnected')"),
        by simp [sendOne, attemptSend, hv, catchBlock, undefinedClientError], rfl, ?_⟩
      simp [sendOne, attemptSend, hv, Effect.isClientCall, Effect.isSend]

theorem sendLoop_unready (env : Env) (message : Option String) (file : Option (String × Nat)) :
    ∀ (numbers : List String) (i : Nat),
      ∃ rs, (sendLoop env none message file i numbers).1 = some rs ∧
        rs.length = numbers.length ∧ (∀ r ∈ rs, r.status = "Failed ❌") ∧
        ∀ e ∈ (sendLoop env none message file i numbers).2, e.isClientCall = false := by
  intro numbers
  induction numbers with
  | nil => intro i; exact ⟨[], rfl, rfl, by simp, by simp [sendLoop]⟩
  | cons n ns ih =>
    intro i
    obtain ⟨r0, hr0, hst, _⟩ := sendOne_unready env message file i n
    obtain ⟨rs, hrs, hlen, hall, _⟩ := ih (i + 1)
    have heff := sendLoop_effects_all env none message file (fun e => e.isClientCall = false)
      (fun j m e he => (sendOne_unready env message file j m).choose_spec.2.2 e he)
      (n :: ns) i
    refine ⟨r0 :: rs, ?_, by simp [hlen], ?_, heff⟩
    · simp only [sendLoop]
      cases h1 : sendOne env none message file i n with
      | mk o es =>
        rw [h1] at hr0
        simp only at hr0
        subst hr0
        cases h2 : sendLoop env none message file (i + 1) ns with
        | mk o2 es2 =>
          rw [h2] at hrs
          simp only at hrs
          subst hrs
          rfl
    · intro r hr
      rcases List.mem_cons.1 hr with rfl | hr
      · exact hst
      · exact hall r hr

/-- C5 (amended): while the client handle is not set, `GET /get-groups` answers 500 and
`POST /send-group-message` with a group id and a message answers 500, both without any
effect; `POST /send-media` with a non-empty array of K numbers calls no method of the client
either, but its answer is never 500-class: it is 200 with K entries that are all
"Failed ❌", or 400 when the type of the attachment is not supported. -/
theorem unready_session (env : Env) :
    getGroups none =
      ({ status := 500, body := .error "WhatsApp client is not initialized yet." }, []) ∧
    (∀ (req : GroupMessageRequest) (groupId message : String),
      req.groupId = some groupId → groupId ≠ "" → req.message = some message → message ≠ "" →
      sendGroupMessage env none req =
        ({ status := 500, body := .error "Failed to send message." }, [])) ∧
    (∀ (req : SendMediaRequest) (numbers : List String),
      CarriesNumbers env req.numbers numbers → numbers ≠ [] →
      (∀ e ∈ (sendMedia env none req).2, e.isClientCall = false) ∧
      ((sendMedia env none req).1 =
          some { status := 400, body := .error "Unsupported file type" } ∨
        ∃ results : List SendResult,
          (sendMedia env none req).1 = some { status := 200, body := .results results } ∧
          results.length = numbers.length ∧ ∀ r ∈ results, r.status = "Failed ❌")) := by
  refine ⟨rfl, ?_, ?_⟩
  · intro req groupId message hg hg' hm hm'
    simp [sendGroupMessage, hg, hm, truthy, hg', hm', failedToSend]
  · intro req numbers hnum hne
    cases hf : req.file with
    | none =>
      obtain ⟨rs, hrs, hlen, hall, heff⟩ := sendLoop_unready env req.message none numbers 0
      rw [sendMedia_no_file env none req numbers hnum hne hf rs hrs]
      exact ⟨heff, Or.inr ⟨rs, rfl, hlen, hall⟩⟩
    | some f =>
      cases hext : env.mimeExtension f.mimetype with
      | none =>
        rw [sendMedia_of_carries env none req numbers hnum hne, hf]
        simp [hext]
      | some ext =>
        obtain ⟨rs, hrs, hlen, hall, heff⟩ :=
          sendLoop_unready env req.message (some (f.path ++ "." ++ ext, f.size)) numbers 0
        rw [sendMedia_file env none req numbers hnum hne f ext hf hext rs hrs]
        refine ⟨?_, Or.inr ⟨rs, rfl, hlen, hall⟩⟩
        intro e he
        simp only [List.mem_append, List.mem_singleton] at he
        rcases he with (rfl | he) | rfl
        · rfl
        · exact heff e he
        · rfl

/-- An instance of `unready_session`: a group message and a text to one number while no
client is set. -/
theorem unready_session_witness :
    sendGroupMessage sampleEnv none
        { groupId := some "1203630@g.us", message := some "hello", file := none } =
      ({ status := 500, body := .error "Failed to send message." }, []) ∧
    (∀ e ∈ (sendMedia sampleEnv none tenDigit91Request).2, e.isClientCall = false) ∧
    (sendMedia sampleEnv none tenDigit91Request).1.map Response.status = some 200 := by
  have h := unready_session sampleEnv
  refine ⟨h.2.1 _ "1203630@g.us" "hello" rfl (by decide) rfl (by decide), ?_, by decide⟩
  exact (h.2.2 tenDigit91Request ["9123456789"] (Or.inr ⟨_, rfl, by decide⟩) (by decide)).1

/-! ## `/send-media`: the size check -/

/-- C6: when the extension of the renamed attachment is ".mp4" in any spelling of small and
capital letters and the file has more than 67108864 bytes, `/send-media` answers with one
entry per recipient, in order, each "Failed ❌" with the error "Video file too large. Max:
64MB.", and calls no method of the client. A file of exactly 67108864 bytes, or with an
extension that is not a spelling of ".mp4", at any size, passes the check: with a client
whose calls resolve every recipient is "Sent ✅". -/
theorem sendMedia_video_size_check (env : Env) (client : Option Client)
    (req : SendMediaRequest) (numbers : List String) (f : UploadedFile) (ext : String)
    (hnum : CarriesNumbers env req.numbers numbers) (hne : numbers ≠ [])
    (hfile : req.file = some f) (hext : env.mimeExtension f.mimetype = some ext) :
    (env.extname (f.path ++ "." ++ ext) ∈ [".mp4", ".mP4", ".Mp4", ".MP4"] →
      67108864 < f.size →
      (sendMedia env client req).1 =
        some { status := 200, body := .results (numbers.map fun n =>
            { number := withCountryCode n, status := "Failed ❌",
              error := some "Video file too large. Max: 64MB." }) } ∧
      ∀ e ∈ (sendMedia env client req).2, e.isClientCall = false) ∧
    (f.size = 67108864 ∨
        env.extname (f.path ++ "." ++ ext) ∉ [".mp4", ".mP4", ".Mp4", ".MP4"] →
      videoTooLarge env (f.path ++ "." ++ ext) f.size = false ∧
      ∀ c : Client, (∀ i, c.isConnected i = none) →
        (∀ i d p b m, c.sendFile i d p b m = none) →
        (sendMedia env (some c) req).1 =
          some { status := 200, body := .results (numbers.map fun n =>
              { number := withCountryCode n, status := "Sent ✅", error := none }) }) := by
  constructor
  · intro hmp4 hsize
    have hv : videoTooLarge env (f.path ++ "." ++ ext) f.size = true :=
      (videoTooLarge_iff _ _ _).2 ⟨(toLowerCase_eq_mp4_iff _).2 hmp4, hsize⟩
    have hrs := sendLoop_results_map env client req.message
      (some (f.path ++ "." ++ ext, f.size))
      (fun n => tooLargeEntry (withCountryCode n)) (by intro i n; simp [sendOne, hv]) numbers 0
    rw [sendMedia_file env client req numbers hnum hne f ext hfile hext _ hrs]
    refine ⟨rfl, ?_⟩
    intro e he
    simp only [List.mem_append, List.mem_singleton] at he
    rcases he with (rfl | he) | rfl
    · rfl
    · exact sendLoop_effects_all env client req.message _ (fun e => e.isClientCall = false)
        (by intro i n e he; simp [sendOne, hv] at he; subst he; rfl) numbers 0 e he
    · rfl
  · intro hnot
    have hv : videoTooLarge env (f.path ++ "." ++ ext) f.size = false := by
      cases hv : videoTooLarge env (f.path ++ "." ++ ext) f.size with
      | false => rfl
      | true =>
        obtain ⟨h1, h2⟩ := (videoTooLarge_iff _ _ _).1 hv
        rcases hnot with h | h
        · omega
        · exact absurd ((toLowerCase_eq_mp4_iff _).1 h1) h
    refine ⟨hv, ?_⟩
    intro c hconn hsend
    have hrs := sendLoop_results_map env (some c) req.message
      (some (f.path ++ "." ++ ext, f.size))
      (fun n => sentEntry (withCountryCode n))
      (by intro i n; simp [sendOne, attemptSend, hv, hconn, hsend]) numbers 0
    rw [sendMedia_file env (some c) req numbers hnum hne f ext hfile hext _ hrs]
    rfl

/-- Two instances of `sendMedia_video_size_check`: a video of 67108865 bytes whose renamed
path ends in ".MP4", in capitals, is rejected for both recipients without any call of the
client, and a video of exactly 67108864 bytes is sent to both. -/
theorem sendMedia_video_size_check_witness :
    capitalsEnv.extname ("uploads/0a1b2c" ++ "." ++ "MP4") = ".MP4" ∧
    (sendMedia capitalsEnv (some okClient) bigVideoRequest).1 =
      some { status := 200, body := .results
              [{ number := "919876543210", status := "Failed ❌",
                 error := some "Video file too large. Max: 64MB." },
               { number := "919876543211", status := "Failed ❌",
                 error := some "Video file too large. Max: 64MB." }] } ∧
    (∀ e ∈ (sendMedia capitalsEnv (some okClient) bigVideoRequest).2,
      e.isClientCall = false) ∧
    (sendMedia sampleEnv (some okClient) exactVideoRequest).1 =
      some { status := 200, body := .results
              [{ number := "919876543210", status := "Sent ✅", error := none },
               { number := "919876543211", status := "Sent ✅", error := none }] } := by
  have h := (sendMedia_video_size_check capitalsEnv (some okClient) bigVideoRequest
    ["9876543210", "9876543211"]
    { path := "uploads/0a1b2c", mimetype := "video/mp4", size := 67108865 } "MP4"
    (Or.inl rfl) (by decide) rfl (by decide)).1 (by decide) (by decide)
  have h' := (sendMedia_video_size_check sampleEnv (some okClient) exactVideoRequest
    ["9876543210", "9876543211"]
    { path := "uploads/0a1b2c", mimetype := "video/mp4", size := 67108864 } "mp4"
    (Or.inl rfl) (by decide) rfl (by decide)).2 (Or.inl rfl)
  refine ⟨by decide, ?_, h.2, ?_⟩
  · rw [h.1]
    decide
  · rw [h'.2 okClient (fun _ => rfl) (fun _ _ _ _ _ => rfl)]
    decide

/-! ## `/get-groups` -/

theorem filter_map_groups (chats : List Chat) (hid : ∀ chat ∈ chats, chat.id ≠ none) :
    (filterGroups chats).bind mapGroups = some (chats.filterMap groupEntry) := by
  have key : ∃ kept, filterGroups chats = some kept ∧
      mapGroups kept = some (chats.filterMap groupEntry) := by
    induction chats with
    | nil => exact ⟨[], rfl, rfl⟩
    | cons chat rest ih =>
      obtain ⟨kept, hk, hm⟩ := ih (fun ch h => hid ch (List.mem_cons_of_mem _ h))
      obtain ⟨isGroup, id, name⟩ := chat
      cases id with
      | none => exact absurd rfl (hid _ (List.mem_cons_self _ _))
      | some id =>
        by_cases hg : isGroup = true
        · subst hg
          refine ⟨{ isGroup := true, id := some id, name := name } :: kept,
            by simp [filterGroups, isGroupChat, hk], ?_⟩
          cases name with
          | none => simp [mapGroups, toGroup, truthy, hm, groupEntry, List.filterMap_cons]
          | some n =>
            by_cases hn : n = "" <;>
              simp [mapGroups, toGroup, truthy, hm, groupEntry, List.filterMap_cons, hn]
        · have hg' : isGroup = false := by simpa using hg
          subst hg'
          by_cases hs : id.server = "g.us"
          · refine ⟨{ isGroup := false, id := some id, name := name } :: kept,
              by simp [filterGroups, isGroupChat, hk, hs], ?_⟩
            cases name with
            | none => simp [mapGroups, toGroup, truthy, hm, groupEntry, List.filterMap_cons, hs]
            | some n =>
              by_cases hn : n = "" <;>
                simp [mapGroups, toGroup, truthy, hm, groupEntry, List.filterMap_cons, hn, hs]
          · refine ⟨kept, by simp [filterGroups, isGroupChat, hk, hs], ?_⟩
            simp [hm, groupEntry, List.filterMap_cons, hs]
  obtain ⟨kept, hk, hm⟩ := key
  rw [hk]
  exact hm

/-- C8: once the client is ready and returns a list of chats that all have an identifier,
`/get-groups` answers 200 with, in the original order, one pair for every chat that has the
flag `isGroup` or whose identifier has the server "g.us", and for no other chat; the pair
holds the serialized identifier and the name, or "Unnamed Group" when the name is missing
or empty. The answer is the empty array when no chat is a group. -/
theorem getGroups_lists_groups (c : Client) (chats : List Chat)
    (hchats : c.getAllChats = .ok (some chats)) (hid : ∀ chat ∈ chats, chat.id ≠ none) :
    (getGroups (some c)).1 =
      { status := 200, body := .groups (chats.filterMap fun chat =>
          match chat.id with
          | some id =>
            if chat.isGroup = true ∨ id.server = "g.us" then
              some { name := (match chat.name with
                              | some n => if n = "" then "Unnamed Group" else n
                              | none => "Unnamed Group"),
                     id := id.serialized }
            else none
          | none => none) } ∧
    ((∀ chat ∈ chats, chat.isGroup = false ∧ ∀ id, chat.id = some id → id.server ≠ "g.us") →
      (getGroups (some c)).1 = { status := 200, body := .groups [] }) := by
  have h : (getGroups (some c)).1 =
      { status := 200, body := .groups (chats.filterMap groupEntry) } := by
    unfold getGroups
    simp only [hchats]
    by_cases h0 : chats.length = 0
    · have : chats = [] := List.length_eq_zero.1 h0
      subst this
      rfl
    · simp only [h0, if_false, filter_map_groups chats hid]
  refine ⟨h, ?_⟩
  intro hnone
  rw [h]
  have : chats.filterMap groupEntry = [] := by
    rw [List.filterMap_eq_nil_iff]
    intro chat hc
    obtain ⟨h1, h2⟩ := hnone chat hc
    unfold groupEntry
    cases hi : chat.id with
    | none => rfl
    | some id => simp [h1, h2 id hi]
  rw [this]

/-- An instance of `getGroups_lists_groups` on `sampleChats`. -/
theorem getGroups_lists_groups_witness :
    (getGroups (some { okClient with getAllChats := .ok (some sampleChats) })).1 =
      { status := 200, body := .groups
          [{ name := "Unnamed Group", id := "1203630@g.us" },
           { name := "Family", id := "1203631@g.us" }] } := by
  have h := (getGroups_lists_groups { okClient with getAllChats := .ok (some sampleChats) }
    sampleChats rfl (by decide)).1
  rw [h]
  decide

/-! ## The input collector: no duplicates -/

theorem addNumberTag_numbers (s : Collector) (number : String) :
    (addNumberTag s number).numbers =
      if number ∈ s.numbers then s.numbers else s.numbers ++ [number] := by
  unfold addNumberTag
  by_cases h : number ∈ s.numbers <;> simp [h, updateCounter]

theorem addNumberTag_nodup (s : Collector) (number : String) (h : s.numbers.Nodup) :
    (addNumberTag s number).numbers.Nodup := by
  rw [addNumberTag_numbers]
  by_cases hm : number ∈ s.numbers
  · simpa [hm] using h
  · simp only [hm, if_false]
    rw [List.nodup_append]
    refine ⟨h, List.nodup_singleton _, ?_⟩
    intro x hx hx'
    rw [List.mem_singleton] at hx'
    exact hm (hx' ▸ hx)

theorem foldl_addNumberTag_nodup (ns : List String) :
    ∀ s : Collector, s.numbers.Nodup → (ns.foldl addNumberTag s).numbers.Nodup := by
  induction ns with
  | nil => intro s h; exact h
  | cons n ns ih => intro s h; exact ih _ (addNumberTag_nodup s n h)

theorem step_nodup (s : Collector) (a : Action) (h : s.numbers.Nodup) :
    (s.step a).numbers.Nodup := by
  cases a with
  | input value =>
    simp only [Collector.step, onInput]
    split
    · exact addNumberTag_nodup _ _ h
    · exact h
  | paste pastedData =>
    simp only [Collector.step, onPaste]
    split
    · exact foldl_addNumberTag_nodup _ _ h
    · exact h
  | importNumbers dataNumbers =>
    simp only [Collector.step, importNumbers]
    split
    · exact foldl_addNumberTag_nodup _ _ h
    · exact h
  | addNumberTag number => exact addNumberTag_nodup s number h
  | removeNumber number tag =>
    simp only [Collector.step, removeNumber, updateCounter]
    exact h.filter _
  | deleteAllNumbers =>
    simp [Collector.step, deleteAllNumbers, updateCounter]

theorem foldl_step_nodup (actions : List Action) :
    ∀ s : Collector, s.numbers.Nodup → (actions.foldl Collector.step s).numbers.Nodup := by
  induction actions with
  | nil => intro s h; exact h
  | cons a as ih => intro s h; exact ih _ (step_nodup s a h)

/-- C9: after every finite sequence of typed entries, pastes, imports, `addNumberTag`,
`removeNumber` and `deleteAllNumbers` calls on the freshly loaded page, the elements of
`numbers` are pairwise distinct; `addNumberTag(n)` leaves the whole state unchanged when `n`
is already in the list and appends `n` at the end of the list when it is not. -/
theorem numbers_never_contains_duplicate (actions : List Action) (s : Collector)
    (n : String) :
    (Collector.run actions).numbers.Nodup ∧
    (addNumberTag s n).numbers = (if n ∈ s.numbers then s.numbers else s.numbers ++ [n]) ∧
    addNumberTag s n = (if n ∈ s.numbers then s else addNumberTag s n) := by
  refine ⟨foldl_step_nodup actions Collector.init List.nodup_nil, addNumberTag_numbers s n, ?_⟩
  by_cases h : n ∈ s.numbers
  · simp [h, addNumberTag]
  · simp [h]

/-! ## The input collector: pasted text -/

theorem matchTenAt_eq_some {cs m : List Char} (h : matchTenAt cs = some m) :
    m = cs.take 10 ∧ TenDigits m := by
  unfold matchTenAt at h
  split at h
  · rename_i hc
    cases h
    exact ⟨rfl, hc.1, fun c hcm => List.all_eq_true.1 hc.2 c hcm⟩
  · cases h

theorem matchTenAt_of_tenDigits {cs : List Char} (h : TenDigits (cs.take 10)) :
    matchTenAt cs = some (cs.take 10) := by
  unfold matchTenAt
  rw [if_pos ⟨h.1, List.all_eq_true.2 h.2⟩]

theorem matchTenAt_eq_none {cs : List Char} (h : ¬ TenDigits (cs.take 10)) :
    matchTenAt cs = none := by
  cases hm : matchTenAt cs with
  | none => rfl
  | some m =>
    obtain ⟨rfl, hd⟩ := matchTenAt_eq_some hm
    exact absurd hd h

theorem not_tenDigits_take_of_none {cs : List Char} (h : matchTenAt cs = none) :
    ¬ TenDigits (cs.take 10) := by
  intro hd
  rw [matchTenAt_of_tenDigits hd] at h
  cases h

theorem not_hasTenDigits_of_short {s : List Char} (h : s.length < 10) : ¬ HasTenDigits s := by
  rintro ⟨m, hm, hin⟩
  have := hin.length_le
  rw [hm.1] at this
  omega

/-- Moving one position on without a match keeps the scanned part free of ten digits. -/
theorem not_hasTenDigits_step {g : List Char} {c : Char} {cs : List Char}
    (hg : ¬ HasTenDigits (g ++ (c :: cs).take 9)) (hnone : matchTenAt (c :: cs) = none) :
    ¬ HasTenDigits ((g ++ [c]) ++ cs.take 9) := by
  have hnot := not_tenDigits_take_of_none hnone
  have heq : (g ++ [c]) ++ cs.take 9 = g ++ (c :: cs).take 10 := by simp
  rw [heq, List.take_succ]
  cases h9 : (c :: cs)[9]? with
  | none => simpa using hg
  | some d =>
    rintro ⟨m, hm, hin⟩
    simp only [Option.toList_some] at hin
    rw [← List.append_assoc, List.infix_concat_iff] at hin
    rcases hin with hsuf | hin
    · apply hnot
      have ht : (c :: cs).take 10 = (c :: cs).take 9 ++ [d] := by
        rw [List.take_succ, h9]; rfl
      have hlen : ((c :: cs).take 10).length = 10 := by
        have h9' := List.getElem?_eq_some_iff.1 h9
        obtain ⟨hlt, _⟩ := h9'
        rw [List.length_take]
        omega
      have hsuf' : (c :: cs).take 10 <:+ g ++ (c :: cs).take 9 ++ [d] := by
        rw [ht, List.append_assoc]
        exact List.suffix_append _ _
      have := (List.suffix_of_suffix_length_le hsuf hsuf' (by rw [hm.1, hlen])).eq_of_length
        (by rw [hm.1, hlen])
      rw [← this]
      exact hm
    · exact hg ⟨m, hm, hin⟩

/-- The scan of `/\d{10}/g` finds the embedded ten-digit substrings. -/
theorem embeddedTens_matchAllAux :
    ∀ (fuel : Nat) (g cs : List Char), cs.length ≤ fuel → ¬ HasTenDigits (g ++ cs.take 9) →
      EmbeddedTens (g ++ cs) (matchAllAux fuel cs) := by
  intro fuel
  induction fuel with
  | zero =>
    intro g cs hlen hg
    have : cs = [] := List.length_eq_zero.1 (Nat.le_zero.1 hlen)
    subst this
    exact EmbeddedTens.done (by simpa using hg)
  | succ fuel ih =>
    intro g cs hlen hg
    cases cs with
    | nil => exact EmbeddedTens.done (by simpa using hg)
    | cons c cs =>
      cases hm : matchTenAt (c :: cs) with
      | some m =>
        obtain ⟨hmeq, hd⟩ := matchTenAt_eq_some hm
        have hrest : EmbeddedTens ([] ++ (c :: cs).drop 10)
            (matchAllAux fuel ((c :: cs).drop 10)) := by
          apply ih
          · simp only [List.length_drop, List.length_cons] at hlen ⊢
            omega
          · apply not_hasTenDigits_of_short
            simp only [List.nil_append, List.length_take]
            omega
        have hsplit : g ++ (c :: cs) = g ++ m ++ (c :: cs).drop 10 := by
          rw [hmeq, List.append_assoc, List.take_append_drop]
        have hm9 : m.take 9 = (c :: cs).take 9 := by
          rw [hmeq, List.take_take]
          rfl
        simp only [matchAllAux, hm]
        rw [hsplit]
        refine EmbeddedTens.next hd ?_ (by simpa using hrest)
        rw [hm9]
        exact hg
      | none =>
        have := ih (g ++ [c]) cs (by simpa using hlen) (not_hasTenDigits_step hg hm)
        simp only [matchAllAux, hm]
        simpa using this

theorem matchAllAux_of_not_hasTenDigits :
    ∀ (fuel : Nat) (g : List Char), ¬ HasTenDigits g → matchAllAux fuel g = [] := by
  intro fuel
  induction fuel with
  | zero => intro g _; rfl
  | succ fuel ih =>
    intro g hg
    cases g with
    | nil => rfl
    | cons c cs =>
      cases hm : matchTenAt (c :: cs) with
      | some m =>
        obtain ⟨hmeq, hd⟩ := matchTenAt_eq_some hm
        exact absurd ⟨m, hd, hmeq ▸ (List.take_prefix 10 (c :: cs)).isInfix⟩ hg
      | none =>
        simp only [matchAllAux, hm]
        exact ih cs (fun ⟨m, hd, hin⟩ => hg ⟨m, hd, List.infix_cons hin⟩)

/-- The embedded ten-digit substrings of a text are the matches of the scan, and no others. -/
theorem matchAllAux_of_embeddedTens {s : List Char} {ms : List (List Char)}
    (h : EmbeddedTens s ms) : ∀ fuel, s.length ≤ fuel → matchAllAux fuel s = ms := by
  induction h with
  | done hg => intro fuel _; exact matchAllAux_of_not_hasTenDigits fuel _ hg
  | @next g m rest ms hd hg _ ih =>
    induction g with
    | nil =>
      intro fuel hlen
      obtain ⟨c, m', rfl⟩ : ∃ c m', m = c :: m' := by
        cases m with
        | nil => simp [TenDigits] at hd
        | cons c m' => exact ⟨c, m', rfl⟩
      cases fuel with
      | zero => simp at hlen
      | succ fuel =>
        have htake : ((c :: m') ++ rest).take 10 = c :: m' := by
          rw [List.take_append_of_le_length (by rw [hd.1]), List.take_of_length_le (by rw [hd.1])]
        have hdrop : ((c :: m') ++ rest).drop 10 = rest := by
          rw [← hd.1]; exact List.drop_left _ _
        have hmatch : matchTenAt ((c :: m') ++ rest) = some (c :: m') := by
          have := @matchTenAt_of_tenDigits ((c :: m') ++ rest) (by rw [htake]; exact hd)
          rw [this, htake]
        have hlen' : rest.length ≤ fuel := by
          simp only [List.nil_append, List.length_append, List.length_cons] at hlen
          omega
        simp only [List.nil_append]
        show matchAllAux (fuel + 1) (c :: (m' ++ rest)) = _
        simp only [matchAllAux]
        rw [show c :: (m' ++ rest) = (c :: m') ++ rest from rfl, hmatch]
        simp only []
        rw [hdrop, ih fuel hlen']
    | cons c g ihg =>
      intro fuel hlen
      cases fuel with
      | zero => simp at hlen
      | succ fuel =>
        have hnone : matchTenAt (c :: (g ++ m ++ rest)) = none := by
          apply matchTenAt_eq_none
          intro htd
          apply hg
          refine ⟨_, htd, ?_⟩
          have h10 : 10 ≤ ((c :: g) ++ m.take 9).length := by
            simp only [List.length_append, List.length_cons, List.length_take, hd.1]
            omega
          have hpre : (c :: (g ++ m ++ rest)).take 10 = (((c :: g) ++ m.take 9)).take 10 := by
            have : c :: (g ++ m ++ rest) = ((c :: g) ++ m.take 9) ++ (m.drop 9 ++ rest) := by
              simp only [List.cons_append, List.append_assoc, List.cons.injEq, true_and,
                List.append_cancel_left_eq]
              rw [← List.append_assoc, List.take_append_drop]
            rw [this, List.take_append_of_le_length h10]
          rw [hpre]
          exact (List.take_prefix _ _).isInfix
        have hg' : ¬ HasTenDigits (g ++ m.take 9) := fun ⟨x, hx, hin⟩ =>
          hg ⟨x, hx, by simpa using List.infix_cons hin⟩
        have hlen' : (g ++ m ++ rest).length ≤ fuel := by
          simp only [List.cons_append, List.length_cons] at hlen
          omega
        show matchAllAux (fuel + 1) (c :: (g ++ m ++ rest)) = _
        simp only [matchAllAux, hnone]
        exact ihg hg' fuel hlen'

theorem dedup_append_cons_of_mem {x : String} :
    ∀ (l₁ l₂ : List String), x ∈ l₂ → (l₁ ++ x :: l₂).dedup = (l₁ ++ l₂).dedup := by
  intro l₁
  induction l₁ with
  | nil => intro l₂ hx; exact List.dedup_cons_of_mem hx
  | cons a l₁ ih =>
    intro l₂ hx
    by_cases ha : a ∈ l₁ ++ l₂
    · have ha' : a ∈ l₁ ++ x :: l₂ := by
        simp only [List.mem_append, List.mem_cons] at ha ⊢
        tauto
      rw [List.cons_append, List.cons_append, List.dedup_cons_of_mem ha,
        List.dedup_cons_of_mem ha', ih l₂ hx]
    · have ha' : a ∉ l₁ ++ x :: l₂ := by
        simp only [List.mem_append, List.mem_cons] at ha ⊢
        rintro (h | rfl | h)
        · exact ha (Or.inl h)
        · exact ha (Or.inr hx)
        · exact ha (Or.inr h)
      rw [List.cons_append, List.cons_append, List.dedup_cons_of_not_mem ha,
        List.dedup_cons_of_not_mem ha', ih l₂ hx]

theorem foldl_addNumberTag_numbers (ns : List String) :
    ∀ s : Collector, s.numbers.Nodup →
      (ns.foldl addNumberTag s).numbers = ((s.numbers ++ ns).reverse.dedup).reverse := by
  induction ns with
  | nil =>
    intro s h
    simp only [List.foldl_nil, List.append_nil]
    rw [(List.nodup_reverse.2 h).dedup, List.reverse_reverse]
  | cons n ns ih =>
    intro s h
    rw [List.foldl_cons, ih _ (addNumberTag_nodup s n h), addNumberTag_numbers]
    by_cases hm : n ∈ s.numbers
    · simp only [hm, if_true]
      congr 1
      have : (s.numbers ++ n :: ns).reverse = (ns.reverse ++ n :: s.numbers.reverse) := by simp
      rw [this, dedup_append_cons_of_mem _ _ (List.mem_reverse.2 hm)]
      simp
    · simp only [hm, if_false]
      simp

theorem onPaste_init_numbers (text : String) :
    (onPaste Collector.init text).numbers = firstOccurrences (matchAll text) := by
  unfold onPaste jsMatch
  cases h : matchAll text with
  | nil => rfl
  | cons m ms =>
    simp only []
    rw [foldl_addNumberTag_numbers (m :: ms) Collector.init List.nodup_nil]
    rfl

theorem embeddedTens_matchAll (text : String) :
    EmbeddedTens text.toList ((matchAll text).map String.toList) := by
  have h := embeddedTens_matchAllAux text.toList.length [] text.toList (le_refl _)
    (not_hasTenDigits_of_short (by simp only [List.nil_append, List.length_take]; omega))
  have hmap : (matchAll text).map String.toList =
      matchAllAux text.toList.length text.toList := by
    unfold matchAll
    rw [List.map_map]
    have hid : (String.toList ∘ String.mk) = id := funext fun _ => rfl
    rw [hid, List.map_id]
  rw [hmap]
  simpa using h

/-- C10, as stated, fails: the text "1234567890 1234567890" holds two embedded ten-digit
substrings, the handler extracts both, and after the paste into the empty collector the
tracked list holds one number, not the two extracted. -/
theorem paste_of_repeated_number_tracks_it_once :
    EmbeddedTens "1234567890 1234567890".toList
      ["1234567890".toList, "1234567890".toList] ∧
    jsMatch "1234567890 1234567890" = some ["1234567890", "1234567890"] ∧
    (onPaste Collector.init "1234567890 1234567890").numbers = ["1234567890"] ∧
    (onPaste Collector.init "1234567890 1234567890").numbers ≠
      ["1234567890", "1234567890"] := by
  refine ⟨?_, by decide, by decide, by decide⟩
  have h := embeddedTens_matchAll "1234567890 1234567890"
  have hm : (matchAll "1234567890 1234567890").map String.toList =
      ["1234567890".toList, "1234567890".toList] := by decide
  rw [hm] at h
  exact h

/-- C10 (amended): for every pasted text the handler extracts exactly the ten-digit
substrings embedded in the text, in the order they are found (the extracted list splits the
text into blocks of ten digits and gaps in which no ten digits begin, and it is the only
list that does); pasting into the empty collector leaves in `numbers` the extracted numbers
in that order with every repetition of an earlier number dropped, hence the extracted list
itself when its numbers are pairwise distinct. -/
theorem paste_extracts_embedded_numbers (text : String) :
    EmbeddedTens text.toList ((matchAll text).map String.toList) ∧
    (∀ ms : List (List Char), EmbeddedTens text.toList ms → matchAll text = ms.map String.mk) ∧
    (onPaste Collector.init text).numbers = firstOccurrences (matchAll text) ∧
    ((matchAll text).Nodup → (onPaste Collector.init text).numbers = matchAll text) := by
  refine ⟨embeddedTens_matchAll text, ?_, onPaste_init_numbers text, ?_⟩
  · intro ms hms
    unfold matchAll
    rw [matchAllAux_of_embeddedTens hms _ (le_refl _)]
  · intro hnd
    rw [onPaste_init_numbers]
    unfold firstOccurrences
    rw [(List.nodup_reverse.2 hnd).dedup, List.reverse_reverse]

/-- An instance of `paste_extracts_embedded_numbers`: a text with two distinct numbers, one
of them followed by further digits. -/
theorem paste_extracts_embedded_numbers_witness :
    matchAll "call 9876543210 or 01234567891." = ["9876543210", "0123456789"] ∧
    (onPaste Collector.init "call 9876543210 or 01234567891.").numbers =
      ["9876543210", "0123456789"] := by
  have hm : matchAll "call 9876543210 or 01234567891." = ["9876543210", "0123456789"] := by
    decide
  refine ⟨hm, ?_⟩
  rw [(paste_extracts_embedded_numbers "call 9876543210 or 01234567891.").2.2.2
    (by rw [hm]; decide), hm]

end BulkMessageSender
